import Mathlib

/-!
Verification of the error-monitor core: stack-trace parsing
(`StackTraceParserService`), repository resolution (`RepositoryFinderService`),
severity mapping (`BugWorkItem`), and the fix workflow orchestrator
(`BugFixOrchestratorService`).

The TypeScript services are embedded shallowly:

* JS regular expressions are embedded as CPS backtracking matchers over
  `List Char` that mirror the JS engine's leftmost-match, greedy and
  left-preferring-alternation semantics for the concrete patterns the
  services use.
* Stateful workflow code is embedded as pure functions from collaborator
  "ports" (functions returning `Except String α`, the error being the
  thrown `Error`'s message) to a result paired with an ordered effect log.
  The wall clock is abstracted as a port (`Ports.now`).
-/

/-! ## Character classes (JS regex semantics) -/

/-- JS `\w`: ASCII letters, digits and underscore. -/
def wordChar (c : Char) : Bool :=
  (('a' ≤ c && c ≤ 'z') || ('A' ≤ c && c ≤ 'Z') || ('0' ≤ c && c ≤ '9') || c = '_')

/-- JS `\s` (common whitespace: space, tab, newline, carriage return,
vertical tab, form feed). -/
def spaceChar (c : Char) : Bool :=
  (c = ' ' || c = '\t' || c = '\n' || c = '\r' || c = '\x0b' || c = '\x0c')

/-- JS `.` without the `s` flag: any character except line terminators. -/
def dotChar (c : Char) : Bool :=
  !(c = '\n' || c = '\r')

/-- JS `\d`. -/
def digitChar (c : Char) : Bool :=
  ('0' ≤ c && c ≤ '9')

/-- JS `[\w.]`. -/
def wordDotChar (c : Char) : Bool :=
  wordChar c || c = '.'

/-! ## Small string helpers -/

/-- Does `pat` occur at the start of `l`? -/
def startsWithL : List Char → List Char → Bool
  | _, [] => true
  | [], _ :: _ => false
  | a :: as, b :: bs => a = b && startsWithL as bs

/-- Substring occurrence test on char lists (JS `String.prototype.includes`). -/
def hasSubL : List Char → List Char → Bool
  | l, pat =>
    startsWithL l pat ||
      (match l with
       | [] => false
       | _ :: as => hasSubL as pat)

/-- JS `haystack.includes(needle)`. -/
def strContains (s pat : String) : Bool :=
  hasSubL s.data pat.data

/-- JS `s.split(sep)` for a single-character separator (the semantics agree
with `String.splitOn` for these separators); implemented structurally over
the character list so that concrete runs reduce in the kernel. -/
def splitOnCharL (sep : Char) : List Char → List (List Char)
  | [] => [[]]
  | c :: rest =>
    if c = sep then [] :: splitOnCharL sep rest
    else
      match splitOnCharL sep rest with
      | h :: t => (c :: h) :: t
      | [] => [[c]]

def jsSplit (sep : Char) (s : String) : List String :=
  (splitOnCharL sep s.data).map String.mk

/-- JS `s.trim()` (whitespace classified by `spaceChar`). -/
def trimJs (s : String) : String :=
  String.mk (((s.data.dropWhile spaceChar).reverse.dropWhile spaceChar).reverse)

/-- JS `s.slice(0, n)`. -/
def takeJs (n : Nat) (s : String) : String :=
  String.mk (s.data.take n)

/-- JS `s.toLowerCase()` (ASCII range). -/
def toLowerJs (s : String) : String :=
  String.mk (s.data.map Char.toLower)

/-- JS `array.join(sep)`. -/
def intercalateJs (sep : String) : List String → String
  | [] => ""
  | h :: t => t.foldl (fun acc x => acc ++ sep ++ x) h

/-- Numeric value of a decimal digit string (most significant first). -/
def decValue (ds : List Char) : Nat :=
  ds.foldl (fun acc c => 10 * acc + (c.toNat - 48)) 0

/-- JS `parseInt(s, 10)` restricted to the shapes produced here: the
captured groups are `\d+`, so sign and leading-whitespace handling never
come into play.  `none` models `NaN`. -/
def parseIntDec (s : List Char) : Option Nat :=
  match s.takeWhile digitChar with
  | [] => none
  | ds => some (decValue ds)

/-! ## CPS matcher combinators

A `Matcher` consumes a prefix of its input and passes the remainder (and
the capture list built so far) to a continuation; returning `none` makes
the caller backtrack.  `Caps` associates capture-group indices with the
captured character spans. -/

def Caps : Type := List (Nat × List Char)

/-- Look up capture group `i` (first record wins; group indices are unique
per pattern here). -/
def capGet (caps : Caps) (i : Nat) : Option (List Char) :=
  (caps.find? (fun kv => kv.1 = i)).map (·.2)

def Matcher : Type :=
  List Char → Caps → (List Char → Caps → Option (Caps × List Char)) →
    Option (Caps × List Char)

/-- First-preferring choice on match outcomes (backtracking order). -/
def orElseO (a b : Option (Caps × List Char)) : Option (Caps × List Char) :=
  match a with
  | some r => some r
  | none => b

/-- Empty pattern. -/
def mEps : Matcher := fun inp caps k => k inp caps

/-- Literal character sequence. -/
def mLit : List Char → Matcher
  | [], inp, caps, k => k inp caps
  | _ :: _, [], _, _ => none
  | c :: cs, d :: ds, caps, k => if c = d then mLit cs ds caps k else none

/-- Single character from a class. -/
def mCls (p : Char → Bool) : Matcher := fun inp caps k =>
  match inp with
  | [] => none
  | c :: rest => if p c then k rest caps else none

/-- Sequencing. -/
def mSeq (a b : Matcher) : Matcher := fun inp caps k =>
  a inp caps (fun rest caps2 => b rest caps2 k)

/-- Alternation, left alternative preferred (JS `|`). -/
def mAlt (a b : Matcher) : Matcher := fun inp caps k =>
  orElseO (a inp caps k) (b inp caps k)

/-- Greedy option (JS `?`): try the pattern first, then skip it. -/
def mOpt (a : Matcher) : Matcher := fun inp caps k =>
  orElseO (a inp caps k) (k inp caps)

/-- Backtracking helper for greedy character-class repetition: `run` is the
maximal class run and `rest` the remainder; leftovers are offered to the
continuation from shortest (most consumed) to longest (least consumed). -/
def tryTails (k : List Char → Caps → Option (Caps × List Char)) :
    List Char → List Char → Caps → Option (Caps × List Char)
  | [], rest, caps => k rest caps
  | c :: run, rest, caps =>
    orElseO (tryTails k run rest caps) (k (c :: (run ++ rest)) caps)

/-- Greedy character-class star (JS `c*` for a class `c`). -/
def mStarCls (p : Char → Bool) : Matcher := fun inp caps k =>
  tryTails k (inp.takeWhile p) (inp.dropWhile p) caps

/-- Greedy character-class plusP (JS `c+`). -/
def mPlusCls (p : Char → Bool) : Matcher :=
  mSeq (mCls p) (mStarCls p)

/-- Greedy star over a compound pattern, fuelled.  Every starred compound
pattern in the embedded services consumes at least one character per
iteration, so fuel `inp.length + 1` never runs out. -/
def mStarSeqFuel : Nat → Matcher → Matcher
  | 0, _ => mEps
  | n + 1, a => fun inp caps k =>
    orElseO (a inp caps (fun rest caps2 => mStarSeqFuel n a rest caps2 k)) (k inp caps)

/-- Greedy star over a compound pattern (JS `(?:...)*`). -/
def mStarSeq (a : Matcher) : Matcher := fun inp caps k =>
  mStarSeqFuel (inp.length + 1) a inp caps k

/-- Alternation over literal strings, in order (JS `(?:ts|js|...)`). -/
def mLits : List (List Char) → Matcher
  | [], _, _, _ => none
  | a :: rest, inp, caps, k =>
    orElseO (mLit a inp caps k) (mLits rest inp caps k)

/-- Capture group: records the span the inner pattern consumed. -/
def mGroup (i : Nat) (a : Matcher) : Matcher := fun inp caps k =>
  a inp caps (fun rest caps2 =>
    k rest ((i, inp.take (inp.length - rest.length)) :: caps2))

/-- Scan left to right for the leftmost match (JS `String.prototype.match`
without `g`); returns the captures and the input remaining after the match. -/
def scanFrom (m : Matcher) : List Char → Option (Caps × List Char)
  | [] => m [] [] (fun rest caps => some (caps, rest))
  | c :: t =>
    orElseO (m (c :: t) [] (fun rest caps => some (caps, rest))) (scanFrom m t)

/-- JS `regex.test(s)`. -/
def reTest (m : Matcher) (s : String) : Bool :=
  (scanFrom m s.data).isSome

/-- Leftmost match of `m` in `s` (captures only). -/
def reFind (m : Matcher) (s : String) : Option Caps :=
  (scanFrom m s.data).map (·.1)

/-- Anchored match `^...$` against the whole string. -/
def reMatchAnchored (m : Matcher) (s : String) : Option Caps :=
  (m s.data [] (fun rest caps => if rest.isEmpty then some (caps, rest) else none)).map (·.1)

/-- All matches in order (JS `exec` loop with the `g` flag), fuelled; the
patterns iterated this way always consume at least one character, so the
progress guard and fuel are never exercised. -/
def scanAllFuel (m : Matcher) : Nat → List Char → List Caps
  | 0, _ => []
  | fuel + 1, l =>
    match scanFrom m l with
    | none => []
    | some (caps, rest) =>
      if rest.length < l.length then caps :: scanAllFuel m fuel rest
      else caps :: scanAllFuel m fuel (l.drop 1)

def reFindAll (m : Matcher) (s : String) : List Caps :=
  scanAllFuel m (s.data.length + 1) s.data

/-! ## Stack-trace data model (src/models, `StackTrace.ts`) -/

inductive ProgrammingLanguage where
  | typescript | javascript | python | go | java | csharp | ruby | rust | unknown
deriving DecidableEq, Repr

structure StackFrame where
  filePath : String
  lineNumber : Option Nat := none
  columnNumber : Option Nat := none
  functionName : Option String := none
  className : Option String := none
  isUserCode : Bool
  repository : Option String := none
deriving DecidableEq, Repr

structure StackTrace where
  raw : String
  frames : List StackFrame
  language : ProgrammingLanguage
  errorMessage : String
  errorType : Option String := none
deriving DecidableEq, Repr

/-! ## StackTraceParserService patterns

Each `p...` matcher transliterates one regular expression of
`src/services/StackTraceParserService.ts`. -/

/-- Sequence a list of matchers. -/
def mSeqs (ms : List Matcher) : Matcher :=
  ms.foldr mSeq mEps

def lit (s : String) : Matcher := mLit s.data

def starP (p : Char → Bool) : Matcher := mStarCls p

def plusP (p : Char → Bool) : Matcher := mPlusCls p

def alts (ss : List String) : Matcher := mLits (ss.map String.data)

/-- `/at\s+.*\s+\(.*\.(?:ts|js|tsx|jsx):\d+:\d+\)/` (language detection). -/
def pJsDetect : Matcher :=
  mSeqs [lit "at", plusP spaceChar, starP dotChar, plusP spaceChar, lit "(",
    starP dotChar, lit ".", alts ["ts", "js", "tsx", "jsx"], lit ":",
    plusP digitChar, lit ":", plusP digitChar, lit ")"]

/-- `/File ".*\.py", line \d+/`. -/
def pPyDetect : Matcher :=
  mSeqs [lit "File \"", starP dotChar, lit ".py\", line ", plusP digitChar]

/-- `/\.go:\d+/`. -/
def pGoFile : Matcher :=
  mSeqs [lit ".go:", plusP digitChar]

/-- `/at\s+[\w.]+\([\w.]+\.java:\d+\)/`. -/
def pJavaDetect : Matcher :=
  mSeqs [lit "at", plusP spaceChar, plusP wordDotChar, lit "(",
    plusP wordDotChar, lit ".java:", plusP digitChar, lit ")"]

/-- `/at\s+[\w.]+\s+in\s+.*\.cs:line\s+\d+/`. -/
def pCsDetect : Matcher :=
  mSeqs [lit "at", plusP spaceChar, plusP wordDotChar, plusP spaceChar, lit "in",
    plusP spaceChar, starP dotChar, lit ".cs:line", plusP spaceChar, plusP digitChar]

/-- `/\.rb:\d+:in `/` (Ruby). -/
def pRubyDetect : Matcher :=
  mSeqs [lit ".rb:", plusP digitChar, lit ":in `"]

/-- `/\.rs:\d+:\d+/`. -/
def pRustFile : Matcher :=
  mSeqs [lit ".rs:", plusP digitChar, lit ":", plusP digitChar]

/-- `/thread '.*' panicked/`. -/
def pRustPanic : Matcher :=
  mSeqs [lit "thread '", starP dotChar, lit "' panicked"]

/-- `detectLanguage`: prioritized pattern match, first match wins. -/
def detectLanguage (stackTrace : String) : ProgrammingLanguage :=
  if reTest pJsDetect stackTrace then
    (if strContains stackTrace ".ts" then .typescript else .javascript)
  else if reTest pPyDetect stackTrace then .python
  else if reTest pGoFile stackTrace && strContains stackTrace "goroutine" then .go
  else if reTest pJavaDetect stackTrace then .java
  else if reTest pCsDetect stackTrace then .csharp
  else if reTest pRubyDetect stackTrace then .ruby
  else if reTest pRustFile stackTrace && reTest pRustPanic stackTrace then .rust
  else .unknown

/-! ## Frame extraction -/

/-- `[^():]` (the JS/TS frame pattern's path class). -/
def jsPathChar (c : Char) : Bool :=
  !(c = '(' || c = ')' || c = ':')

/-- `/at\s+(?:(?:(\w+(?:\.\w+)*)\.)?(\w+)\s+)?\(?([^():]+\.(?:ts|js|tsx|jsx|mjs|cjs)):(\d+):(\d+)\)?/`. -/
def pJsFrame : Matcher :=
  mSeqs [lit "at", plusP spaceChar,
    mOpt (mSeqs [
      mOpt (mSeqs [
        mGroup 1 (mSeqs [plusP wordChar, mStarSeq (mSeqs [lit ".", plusP wordChar])]),
        lit "."]),
      mGroup 2 (plusP wordChar), plusP spaceChar]),
    mOpt (lit "("),
    mGroup 3 (mSeqs [plusP jsPathChar, lit ".",
      alts ["ts", "js", "tsx", "jsx", "mjs", "cjs"]]),
    lit ":", mGroup 4 (plusP digitChar), lit ":", mGroup 5 (plusP digitChar),
    mOpt (lit ")")]

/-- Capture group as a string. -/
def capStr (caps : Caps) (i : Nat) : Option String :=
  (capGet caps i).map (fun l => String.mk l)

/-- `lineNum ? parseInt(lineNum, 10) : undefined` for a captured group. -/
def capNum (caps : Caps) (i : Nat) : Option Nat :=
  match capGet caps i with
  | some ds => if ds.isEmpty then none else parseIntDec ds
  | none => none

/-- Vendor/dependency markers of `isUserCode` (all the library patterns are
literal substring tests). -/
def libraryMarkers : List String :=
  ["node_modules", "site-packages", "vendor", ".gem", "dist-packages",
   "internal/", "<anonymous>", "native"]

def isUserCode (path : String) : Bool :=
  !(libraryMarkers.any (fun m => strContains path m))

/-- `parseJavaScriptFrames`: match each line against the frame pattern. -/
def parseJavaScriptFrames (stackTrace : String) : List StackFrame :=
  (jsSplit '\n' stackTrace).filterMap (fun line =>
    (reFind pJsFrame line).map (fun caps =>
      let filePath := (capStr caps 3).getD ""
      { filePath := filePath
        lineNumber := capNum caps 4
        columnNumber := capNum caps 5
        functionName := capStr caps 2
        className := capStr caps 1
        isUserCode := isUserCode filePath }))

/-- `/File "([^"]+\.py)", line (\d+)(?:, in (\w+))?/`. -/
def pPyFrame : Matcher :=
  mSeqs [lit "File \"",
    mGroup 1 (mSeqs [plusP (fun c => !(c = '"')), lit ".py"]),
    lit "\", line ", mGroup 2 (plusP digitChar),
    mOpt (mSeqs [lit ", in ", mGroup 3 (plusP wordChar)])]

def parsePythonFrames (stackTrace : String) : List StackFrame :=
  (jsSplit '\n' stackTrace).filterMap (fun line =>
    (reFind pPyFrame line).map (fun caps =>
      let filePath := (capStr caps 1).getD ""
      { filePath := filePath
        lineNumber := capNum caps 2
        functionName := capStr caps 3
        isUserCode := isUserCode filePath }))

/-- `/([^\s]+\.go):(\d+)/`. -/
def pGoFrame : Matcher :=
  mSeqs [mGroup 1 (mSeqs [plusP (fun c => !(spaceChar c)), lit ".go"]),
    lit ":", mGroup 2 (plusP digitChar)]

/-- `/^(\w+(?:\.\w+)*)\(.*\)$/` (Go function line, applied to the trimmed line). -/
def pGoFunc : Matcher :=
  mSeqs [mGroup 1 (mSeqs [plusP wordChar, mStarSeq (mSeqs [lit ".", plusP wordChar])]),
    lit "(", starP dotChar, lit ")"]

/-- `parseGoFrames` body: tracks the pending `currentFunction` line. -/
def parseGoFramesAux : List String → Option String → List StackFrame
  | [], _ => []
  | line :: rest, curFn =>
    match reMatchAnchored pGoFunc (trimJs line) with
    | some caps => parseGoFramesAux rest (capStr caps 1)
    | none =>
      match reFind pGoFrame line with
      | some caps =>
        let parts := match curFn with
          | some f => jsSplit '.' f
          | none => []
        let filePath := (capStr caps 1).getD ""
        { filePath := filePath
          lineNumber := capNum caps 2
          functionName := parts.getLast?
          className := some (intercalateJs "." parts.dropLast)
          isUserCode := isUserCode filePath } :: parseGoFramesAux rest none
      | none => parseGoFramesAux rest curFn

def parseGoFrames (stackTrace : String) : List StackFrame :=
  parseGoFramesAux (jsSplit '\n' stackTrace) none

/-- `[\w.$]`. -/
def wordDotDollarChar (c : Char) : Bool :=
  wordChar c || c = '.' || c = '$'

/-- `[\w$<>]`. -/
def wordDollarAngleChar (c : Char) : Bool :=
  wordChar c || c = '$' || c = '<' || c = '>'

/-- `/at\s+([\w.$]+)\.([\w$<>]+)\(([\w.]+):(\d+)\)/`. -/
def pJavaFrame : Matcher :=
  mSeqs [lit "at", plusP spaceChar, mGroup 1 (plusP wordDotDollarChar), lit ".",
    mGroup 2 (plusP wordDollarAngleChar), lit "(", mGroup 3 (plusP wordDotChar),
    lit ":", mGroup 4 (plusP digitChar), lit ")"]

/-- `parseJavaFrames`; note the source classifies user code by the class
name, not the file path. -/
def parseJavaFrames (stackTrace : String) : List StackFrame :=
  (jsSplit '\n' stackTrace).filterMap (fun line =>
    (reFind pJavaFrame line).map (fun caps =>
      { filePath := (capStr caps 3).getD ""
        lineNumber := capNum caps 4
        functionName := capStr caps 2
        className := capStr caps 1
        isUserCode := isUserCode ((capStr caps 1).getD "") }))

/-- `[^\s:()]`. -/
def genPathChar (c : Char) : Bool :=
  !(spaceChar c || c = ':' || c = '(' || c = ')')

/-- `/([^\s:()]+\.\w+):(\d+)/g`. -/
def pGenericFrame : Matcher :=
  mSeqs [mGroup 1 (mSeqs [plusP genPathChar, lit ".", plusP wordChar]),
    lit ":", mGroup 2 (plusP digitChar)]

/-- `parseGenericFrames`: all `file.ext:line` tokens, deduplicated by file
path across the accumulated frame list. -/
def parseGenericFrames (stackTrace : String) : List StackFrame :=
  (jsSplit '\n' stackTrace).foldl (fun acc line =>
    (reFindAll pGenericFrame line).foldl (fun acc caps =>
      let filePath := (capStr caps 1).getD ""
      if filePath ≠ "" ∧ ¬ acc.any (fun f => f.filePath = filePath) then
        acc ++ [{ filePath := filePath
                  lineNumber := capNum caps 2
                  isUserCode := isUserCode filePath : StackFrame }]
      else acc) acc) []

/-- `parseFrames`: dispatch on the detected language (C#, Ruby, Rust and
unknown all take the generic fallback, as in the source's `default:`). -/
def parseFrames (stackTrace : String) : ProgrammingLanguage → List StackFrame
  | .typescript | .javascript => parseJavaScriptFrames stackTrace
  | .python => parsePythonFrames stackTrace
  | .go => parseGoFrames stackTrace
  | .java => parseJavaFrames stackTrace
  | _ => parseGenericFrames stackTrace

/-! ## Error type/message extraction -/

/-- `/^(\w+Error):\s*(.+)$/`. -/
def pJsHeader : Matcher :=
  mSeqs [mGroup 1 (mSeqs [plusP wordChar, lit "Error"]), lit ":",
    starP spaceChar, mGroup 2 (plusP dotChar)]

/-- `/^([\w.]+Error|[\w.]+Exception):\s*(.+)$/`. -/
def pPyHeader : Matcher :=
  mSeqs [mGroup 1 (mAlt (mSeqs [plusP wordDotChar, lit "Error"])
      (mSeqs [plusP wordDotChar, lit "Exception"])),
    lit ":", starP spaceChar, mGroup 2 (plusP dotChar)]

/-- `extractErrorInfo`: inspects only the (trimmed) first line of the raw
text; returns `(message, errorType)`. -/
def extractErrorInfo (stackTrace : String) (providedMessage : Option String) :
    String × Option String :=
  let firstLine := trimJs (((jsSplit '\n' stackTrace).head?).getD "")
  match reMatchAnchored pJsHeader firstLine with
  | some caps => (((capStr caps 2).orElse (fun _ => providedMessage)).getD "", capStr caps 1)
  | none =>
    match reMatchAnchored pPyHeader firstLine with
    | some caps => (((capStr caps 2).orElse (fun _ => providedMessage)).getD "", capStr caps 1)
    | none => (providedMessage.getD firstLine, none)

/-- `StackTraceParserService.parse`. -/
def StackTraceParserService.parse (rawStackTrace : String)
    (errorMessage : Option String := none) : StackTrace :=
  let language := detectLanguage rawStackTrace
  let frames := parseFrames rawStackTrace language
  let info := extractErrorInfo rawStackTrace errorMessage
  { raw := rawStackTrace
    frames := frames
    language := language
    errorMessage := info.1
    errorType := info.2 }

/-! ## Audit-log error record (src/index.ts)

The `AuditLogError` interface and its `ErrorSeverity` union are declared in
`src/index.ts` (after the document separator); both are mirrored here field
by field, with `metadata`'s `Record<string, unknown>` embedded as an
association list. -/

/-- Transliterates `export type ErrorSeverity = 'critical' | 'error' |
'warning' | 'info'` (src/index.ts): the severity union admits exactly these
four values. -/
inductive ErrorSeverity where
  | critical | error | warning | info
deriving DecidableEq, Repr

structure AuditLogError where
  id : String
  timestamp : String
  message : String
  stackTrace : String
  severity : ErrorSeverity
  source : String
  environment : String
  commitSha : Option String := none
  repository : Option String := none
  processed : Bool := false
  metadata : List (String × String) := []
deriving DecidableEq, Repr

/-! ## Severity mappings (src/models/BugWorkItem.ts)

The TS `switch` has an unreachable `default` branch (returning `2` /
`"2 - High"`): the `ErrorSeverity` union has exactly the four cases below,
so the Lean match is exhaustive without it. -/

def mapErrorSeverityToBugPriority : ErrorSeverity → Nat
  | .critical => 1
  | .error => 2
  | .warning => 3
  | .info => 4

def mapErrorSeverityToBugSeverity : ErrorSeverity → String
  | .critical => "1 - Critical"
  | .error => "2 - High"
  | .warning => "3 - Medium"
  | .info => "4 - Low"

/-! ## RepositoryFinderService (src/services/RepositoryFinderService.ts)

The GitHub adapter is a "port": a pair of pure functions returning
`Except String α` where `.error msg` models a rejected promise carrying an
`Error` with that message.  Every adapter invocation is recorded in an
ordered call log, so "never consulted" properties are statable. -/

structure RepoData where
  defaultBranch : String
  fullName : String
  url : String
deriving DecidableEq, Repr

structure SearchRepo where
  owner : String
  name : String
  fullName : String
  url : String
deriving DecidableEq, Repr

structure RepositoryInfo where
  owner : String
  name : String
  fullName : String
  url : String
  defaultBranch : String
deriving DecidableEq, Repr

structure PRInput where
  owner : String
  repo : String
  title : String
  body : String
  head : String
  base : String
  draft : Bool
deriving DecidableEq, Repr

structure PROut where
  url : String
  number : Nat
deriving DecidableEq, Repr

structure GitHubPort where
  getRepository : String → String → Except String (Option RepoData)
  searchRepositories : String → Except String (List SearchRepo)
  createBranch : String → String → String → String → Except String Unit
  createPullRequest : PRInput → Except String PROut

/-- One recorded call to the GitHub collaborator. -/
inductive GhCall where
  | getRepo (owner repo : String)
  | search (query : String)
deriving DecidableEq, Repr

/-- `getRepositoryInfo`: split the full name on `/`; a missing or empty
owner or repo segment is "no match" (no adapter call); otherwise one direct
lookup. -/
def getRepositoryInfo (gh : GitHubPort) (fullName : String) :
    Except String (Option RepositoryInfo) × List GhCall :=
  match jsSplit '/' fullName with
  | owner :: repo :: _ =>
    if owner = "" || repo = "" then (.ok none, [])
    else
      match gh.getRepository owner repo with
      | .error e => (.error e, [.getRepo owner repo])
      | .ok none => (.ok none, [.getRepo owner repo])
      | .ok (some d) =>
        (.ok (some { owner := owner, name := repo, fullName := d.fullName,
                     url := d.url, defaultBranch := d.defaultBranch }),
         [.getRepo owner repo])
  | _ => (.ok none, [])

/-- `/github\.com\/([^\/]+)\/([^\/]+)/`. -/
def pGithubPath : Matcher :=
  mSeqs [lit "github.com/", mGroup 1 (plusP (fun c => !(c = '/'))), lit "/",
    mGroup 2 (plusP (fun c => !(c = '/')))]

/-- Second attempt of the `findRepositoryFromStackTrace` loop body: the
frame's stored repository association, falling through to `next` (the rest
of the loop) when absent or when the lookup returns null. -/
def viaRepoFieldAttempt (gh : GitHubPort) (f : StackFrame)
    (next : Except String (Option RepositoryInfo) × List GhCall) :
    Except String (Option RepositoryInfo) × List GhCall :=
  match f.repository with
  | some r =>
    match getRepositoryInfo gh r with
    | (.error e, log) => (.error e, log)
    | (.ok (some info), log) => (.ok (some info), log)
    | (.ok none, log) => (next.1, log ++ next.2)
  | none => next

/-- Loop body of `findRepositoryFromStackTrace` over the user-code frames:
first the `github.com/owner/repo` path pattern, then the frame's stored
repository association; a `null` lookup falls through, adapter failures
propagate. -/
def scanFramesForRepo (gh : GitHubPort) :
    List StackFrame → Except String (Option RepositoryInfo) × List GhCall
  | [] => (.ok none, [])
  | f :: rest =>
    match reFind pGithubPath f.filePath with
    | some caps =>
      let owner := (capStr caps 1).getD ""
      let repo := (capStr caps 2).getD ""
      if owner ≠ "" ∧ repo ≠ "" then
        match getRepositoryInfo gh (owner ++ "/" ++ repo) with
        | (.error e, log) => (.error e, log)
        | (.ok (some info), log) => (.ok (some info), log)
        | (.ok none, log) =>
          ((viaRepoFieldAttempt gh f (scanFramesForRepo gh rest)).1,
           log ++ (viaRepoFieldAttempt gh f (scanFramesForRepo gh rest)).2)
      else viaRepoFieldAttempt gh f (scanFramesForRepo gh rest)
    | none => viaRepoFieldAttempt gh f (scanFramesForRepo gh rest)

def findRepositoryFromStackTrace (gh : GitHubPort) (stackTrace : StackTrace) :
    Except String (Option RepositoryInfo) × List GhCall :=
  scanFramesForRepo gh (stackTrace.frames.filter (·.isUserCode))

/-- `fileName.replace(/\.[^.]+$/, '')`: strip a final dot-extension. -/
def stripExtension (s : String) : String :=
  let rev := s.data.reverse
  let ext := rev.takeWhile (fun c => !(c = '.'))
  match rev.drop ext.length with
  | '.' :: restRev => if ext.isEmpty then s else String.mk restRev.reverse
  | _ => s

/-- The search terms built by `searchForRepository`: the (truthy) source
plus up to three distinct non-empty base names from the first three
user-code frames. -/
def buildSearchTerms (error : AuditLogError) (stackTrace : StackTrace) :
    List String :=
  let init := if error.source ≠ "" then [error.source] else []
  let userCodeFrames := (stackTrace.frames.filter (·.isUserCode)).take 3
  userCodeFrames.foldl (fun terms f =>
    let fileName := stripExtension (((jsSplit '/' f.filePath).getLast?).getD "")
    if fileName ≠ "" ∧ ¬ terms.contains fileName then terms ++ [fileName]
    else terms) init

/-- `searchForRepository`: one fuzzy search; the `try`/`catch` swallows a
failed search (returns no repository); a hit gets the placeholder default
branch `"main"`. -/
def searchForRepository (gh : GitHubPort) (error : AuditLogError)
    (stackTrace : StackTrace) : Option RepositoryInfo × List GhCall :=
  let terms := buildSearchTerms error stackTrace
  if terms.isEmpty then (none, [])
  else
    let query := intercalateJs " " terms
    match gh.searchRepositories query with
    | .error _ => (none, [.search query])
    | .ok [] => (none, [.search query])
    | .ok (first :: _) =>
      (some { owner := first.owner, name := first.name,
              fullName := first.fullName, url := first.url,
              defaultBranch := "main" },
       [.search query])

/-- Step 4 of the resolver chain: the fuzzy search (which cannot raise —
see `searchForRepository`). -/
def repoStep4 (gh : GitHubPort) (error : AuditLogError) (stackTrace : StackTrace) :
    Except String (Option RepositoryInfo) × List GhCall :=
  let s := searchForRepository gh error stackTrace
  (.ok s.1, s.2)

/-- Steps 3–4 of the resolver chain: the stack-trace scan, falling through
to the search. -/
def repoStep3 (gh : GitHubPort) (error : AuditLogError) (stackTrace : StackTrace) :
    Except String (Option RepositoryInfo) × List GhCall :=
  match findRepositoryFromStackTrace gh stackTrace with
  | (.error e, log) => (.error e, log)
  | (.ok (some info), log) => (.ok (some info), log)
  | (.ok none, log) =>
    ((repoStep4 gh error stackTrace).1, log ++ (repoStep4 gh error stackTrace).2)

/-- Steps 2–4 of the resolver chain: the source→repository mapping table,
falling through to the stack-trace scan and the search. -/
def repoStep2 (gh : GitHubPort) (mappings : Option (List (String × String)))
    (error : AuditLogError) (stackTrace : StackTrace) :
    Except String (Option RepositoryInfo) × List GhCall :=
  match mappings.bind (fun m => (m.find? (fun kv => kv.1 = error.source)).map (·.2)) with
  | some mapped =>
    match getRepositoryInfo gh mapped with
    | (.error e, log) => (.error e, log)
    | (.ok (some info), log) => (.ok (some info), log)
    | (.ok none, log) =>
      ((repoStep3 gh error stackTrace).1, log ++ (repoStep3 gh error stackTrace).2)
  | none => repoStep3 gh error stackTrace

/-- `RepositoryFinderService.findRepository`: the prioritized chain —
explicit hint, source mapping, stack-trace scan, search.  The orchestrator
constructs the service without a mapping table (`mappings = none`). -/
def findRepository (gh : GitHubPort) (mappings : Option (List (String × String)))
    (error : AuditLogError) (stackTrace : StackTrace) :
    Except String (Option RepositoryInfo) × List GhCall :=
  match error.repository with
  | some hint =>
    if hint = "" then repoStep2 gh mappings error stackTrace
    else
      match getRepositoryInfo gh hint with
      | (.error e, log) => (.error e, log)
      | (.ok (some info), log) => (.ok (some info), log)
      | (.ok none, log) =>
        ((repoStep2 gh mappings error stackTrace).1,
         log ++ (repoStep2 gh mappings error stackTrace).2)
  | none => repoStep2 gh mappings error stackTrace

/-! ## Fix workflow data model (src/models/FixResult.ts) -/

inductive ChangeType where
  | added | modified | deleted
deriving DecidableEq, Repr

structure ModifiedFile where
  path : String
  changeType : ChangeType
  linesAdded : Nat
  linesRemoved : Nat
deriving DecidableEq, Repr

structure FixResult where
  success : Bool
  errorId : String
  repository : String
  branch : String
  modifiedFiles : List ModifiedFile
  pullRequestUrl : Option String := none
  pullRequestNumber : Option Nat := none
  workItemId : Option Nat := none
  fixSummary : String
  ozRunId : Option String := none
  errorMessage : Option String := none
  timestamp : String
deriving DecidableEq, Repr

inductive FixWorkflowStage where
  | initializing | parsing_error | finding_repository | creating_work_item
  | creating_branch | running_oz_agent | creating_pull_request
  | notifying_team | completed | failed
deriving DecidableEq, Repr

def stageToString : FixWorkflowStage → String
  | .initializing => "initializing"
  | .parsing_error => "parsing_error"
  | .finding_repository => "finding_repository"
  | .creating_work_item => "creating_work_item"
  | .creating_branch => "creating_branch"
  | .running_oz_agent => "running_oz_agent"
  | .creating_pull_request => "creating_pull_request"
  | .notifying_team => "notifying_team"
  | .completed => "completed"
  | .failed => "failed"

def languageToString : ProgrammingLanguage → String
  | .typescript => "typescript"
  | .javascript => "javascript"
  | .python => "python"
  | .go => "go"
  | .java => "java"
  | .csharp => "csharp"
  | .ruby => "ruby"
  | .rust => "rust"
  | .unknown => "unknown"

def severityToString : ErrorSeverity → String
  | .critical => "critical"
  | .error => "error"
  | .warning => "warning"
  | .info => "info"

/-! ## Collaborator ports (adapters/interfaces), in the shapes the
orchestrator invokes them -/

structure CreateBugInput where
  title : String
  description : String
  reproSteps : String
  systemInfo : String
  priority : Nat
  severity : String
  tags : List String
  areaPath : Option String
  iterationPath : Option String
  relatedErrorId : String
deriving DecidableEq, Repr

/-- The created work item; only its (optional) id is consumed downstream. -/
structure BugOut where
  id : Option Nat
deriving DecidableEq, Repr

structure OzInput where
  errorMessage : String
  stackTrace : StackTrace
  repository : String
  branch : String
  environmentId : Option String
  context : String
deriving DecidableEq, Repr

structure OzResult where
  runId : String
  success : Bool
  summary : String
  filesModified : List String
  error : Option String := none
deriving DecidableEq, Repr

structure PRNotifyInput where
  teamId : String
  channelId : String
  prUrl : String
  prTitle : String
  repository : String
  bugTitle : String
  workItemId : Option Nat
  fixSummary : String
deriving DecidableEq, Repr

structure ErrNotifyInput where
  teamId : String
  channelId : String
  errorMessage : String
  errorId : String
  stage : String
deriving DecidableEq, Repr

structure MarkMeta where
  workItemId : Option Nat
  pullRequestUrl : String
  branch : String
  ozRunId : String
deriving DecidableEq, Repr

structure FixInfo where
  workItemId : Option Nat
  pullRequestUrl : String
  branch : String
  fixedAt : String
deriving DecidableEq, Repr

structure ErrFilter where
  severity : List ErrorSeverity
  limit : Nat
deriving DecidableEq, Repr

structure DevOpsPort where
  createBug : CreateBugInput → Except String BugOut
  linkPullRequest : Option Nat → String → Except String Unit
  addComment : Option Nat → String → Except String Unit

structure TeamsPort where
  sendPRNotification : PRNotifyInput → Except String Unit
  sendErrorNotification : ErrNotifyInput → Except String Unit

structure OzPort where
  fixBug : OzInput → Except String OzResult

structure DynamoPort where
  getUnprocessedErrors : ErrFilter → Except String (List AuditLogError)
  markAsProcessed : String → MarkMeta → Except String Unit
  updateErrorWithFixInfo : String → FixInfo → Except String Unit

/-- All collaborators plus the wall clock (`new Date().toISOString()`
abstracted as one opaque timestamp string per run). -/
structure Ports where
  github : GitHubPort
  devops : DevOpsPort
  teams : TeamsPort
  oz : OzPort
  dynamo : DynamoPort
  now : String

structure OrchestratorConfig where
  teamsTeamId : String
  teamsChannelId : String
  devOpsProject : Option String := none
  ozEnvironmentId : Option String := none
deriving DecidableEq, Repr

/-- One observable collaborator interaction or status transition of a
workflow run, in execution order. -/
inductive Eff where
  | stage (s : FixWorkflowStage)
  | gh (c : GhCall)
  | bugCreate (input : CreateBugInput)
  | branchCreate (owner repo branch fromBranch : String)
  | ozRun (input : OzInput)
  | prCreate (input : PRInput)
  | prLink (workItemId : Option Nat) (url : String)
  | comment (workItemId : Option Nat) (text : String)
  | notifyPR (input : PRNotifyInput)
  | notifyError (input : ErrNotifyInput)
  | markProcessed (id : String) (meta : MarkMeta)
  | updateFixInfo (id : String) (info : FixInfo)
deriving DecidableEq, Repr

/-! ## BugFixOrchestratorService -/

/-- The fixed keyword→area table of `determineAreaPath`, in the source's
(insertion) order, which is the order `Object.entries` iterates. -/
def sourceToArea : List (String × String) :=
  [("user-service", "User Management"), ("auth-service", "Authentication"),
   ("api-gateway", "API"), ("report-service", "Reporting"),
   ("notification-service", "Notifications"), ("payment-service", "Payments"),
   ("order-service", "Orders"), ("inventory-service", "Inventory"),
   ("frontend", "Frontend"), ("web", "Frontend"), ("mobile", "Mobile"),
   ("backend", "Backend"), ("infrastructure", "Infrastructure"),
   ("devops", "DevOps")]

/-- `determineAreaPath`: no (truthy) project → `undefined`; else first
keyword contained in the lowercased source, then in the lowercased
repository name; else the project root area. -/
def determineAreaPath (cfg : OrchestratorConfig) (error : AuditLogError)
    (repoInfo : RepositoryInfo) : Option String :=
  match cfg.devOpsProject with
  | none => none
  | some project =>
    if project = "" then none
    else
      let sourceLower := toLowerJs error.source
      match sourceToArea.find? (fun kv => strContains sourceLower kv.1) with
      | some kv => some (project ++ "\\" ++ kv.2)
      | none =>
        let repoLower := toLowerJs repoInfo.name
        match sourceToArea.find? (fun kv => strContains repoLower kv.1) with
        | some kv => some (project ++ "\\" ++ kv.2)
        | none => some project

/-- `formatBugDescription` (template literal, then `.trim()`). -/
def formatBugDescription (error : AuditLogError) (stackTrace : StackTrace)
    (repoInfo : RepositoryInfo) : String :=
  let primaryFrame := stackTrace.frames.find? (·.isUserCode)
  trimJs ("\n## Error Details\n**Message:** " ++ error.message
    ++ "\n**Severity:** " ++ severityToString error.severity
    ++ "\n**Source:** " ++ error.source
    ++ "\n**Environment:** " ++ error.environment
    ++ "\n**Timestamp:** " ++ error.timestamp
    ++ "\n\n## Location\n**Repository:** " ++ repoInfo.fullName
    ++ "\n**File:** " ++ ((primaryFrame.map (·.filePath)).getD "Unknown")
    ++ "\n**Line:** " ++ (((primaryFrame.bind (·.lineNumber)).map toString).getD "Unknown")
    ++ "\n**Function:** " ++ ((primaryFrame.bind (·.functionName)).getD "Unknown")
    ++ "\n\n## Stack Trace\n```\n" ++ error.stackTrace
    ++ "\n```\n\n---\n_This bug was automatically detected and reported by the error monitoring system._\n    ")

/-- `formatPRDescription` (template literal, then `.trim()`); a work-item id
of `0` is falsy in JS, so its line is omitted then too. -/
def formatPRDescription (error : AuditLogError) (stackTrace : StackTrace)
    (workItemId : Option Nat) (fixSummary : String) : String :=
  let primaryFrame := stackTrace.frames.find? (·.isUserCode)
  trimJs ("\n## Bug Fix\n\n### Error\n" ++ error.message
    ++ "\n\n### Location\n- **File:** " ++ ((primaryFrame.map (·.filePath)).getD "Unknown")
    ++ "\n- **Line:** " ++ (((primaryFrame.bind (·.lineNumber)).map toString).getD "Unknown")
    ++ "\n- **Function:** " ++ ((primaryFrame.bind (·.functionName)).getD "Unknown")
    ++ "\n\n### Fix Summary\n" ++ fixSummary
    ++ "\n\n### Related\n"
    ++ (match workItemId with
        | some n => if n = 0 then "" else "- Work Item: #" ++ toString n
        | none => "")
    ++ "\n- Error ID: " ++ error.id
    ++ "\n\n---\n_This PR was automatically generated by Warp Oz agent._\n\nCo-Authored-By: Warp <agent@warp.dev>\n    ")

/-- The `catch` arm of `processError` plus `handleWorkflowError`: a
best-effort error notification (its own failure is swallowed, so only the
attempt is recorded) and a failed `FixResult` with empty repository/branch
fields and the failing stage taken from the status at the point of failure. -/
def failWorkflow (p : Ports) (cfg : OrchestratorConfig) (error : AuditLogError)
    (stage : FixWorkflowStage) (msg : String) (effs : List Eff) :
    FixResult × List Eff :=
  ({ success := false
     errorId := error.id
     repository := ""
     branch := ""
     modifiedFiles := []
     fixSummary := ""
     errorMessage := some msg
     timestamp := p.now },
   effs ++ [.notifyError { teamId := cfg.teamsTeamId, channelId := cfg.teamsChannelId,
                           errorMessage := msg, errorId := error.id,
                           stage := stageToString stage }])

/-- The ticket-creation input assembled in step 3 of `processError`; JS
`slice(0, 100)` on the message is `String.take` (code-unit vs char
difference is immaterial here), and `filter(Boolean)` drops absent and
empty tags. -/
def mkBugInput (cfg : OrchestratorConfig) (error : AuditLogError)
    (stackTrace : StackTrace) (repoInfo : RepositoryInfo) : CreateBugInput :=
  { title := "[Auto-Fix] " ++ takeJs 100 error.message
    description := formatBugDescription error stackTrace repoInfo
    reproSteps := "Stack trace:\n```\n" ++ error.stackTrace ++ "\n```"
    systemInfo := "Environment: " ++ error.environment ++ "\nSource: "
      ++ error.source ++ "\nRepository: " ++ repoInfo.fullName
    priority := mapErrorSeverityToBugPriority error.severity
    severity := mapErrorSeverityToBugSeverity error.severity
    tags := (([some "auto-fix", some "oz-agent", some error.source,
               some error.environment, some repoInfo.name,
               match stackTrace.language with
               | .unknown => none
               | l => some (languageToString l)].filterMap id).filter
             (fun t => t ≠ ""))
    areaPath := determineAreaPath cfg error repoInfo
    iterationPath := match cfg.devOpsProject with
      | some proj => if proj = "" then none else some (proj ++ "\\Backlog")
      | none => none
    relatedErrorId := error.id }

/-- The deterministic fix-branch name. -/
def branchNameOf (error : AuditLogError) : String :=
  "bug/auto-fix-" ++ error.id

/-- The Oz fix task; a missing work-item id interpolates as `"undefined"`
in the JS template literal. -/
def mkOzInput (cfg : OrchestratorConfig) (error : AuditLogError)
    (stackTrace : StackTrace) (repoInfo : RepositoryInfo)
    (bugId : Option Nat) : OzInput :=
  { errorMessage := error.message
    stackTrace := stackTrace
    repository := repoInfo.fullName
    branch := branchNameOf error
    environmentId := cfg.ozEnvironmentId
    context := "DevOps Work Item: " ++
      (match bugId with
       | some n => toString n
       | none => "undefined") }

def mkPRInput (error : AuditLogError) (stackTrace : StackTrace)
    (repoInfo : RepositoryInfo) (bugId : Option Nat) (summary : String) : PRInput :=
  { owner := repoInfo.owner
    repo := repoInfo.name
    title := "[Auto-Fix] " ++ takeJs 80 error.message
    body := formatPRDescription error stackTrace bugId summary
    head := branchNameOf error
    base := repoInfo.defaultBranch
    draft := true }

def commentTextOf (prUrl summary : String) : String :=
  "Automated fix PR created: " ++ prUrl ++ "\n\nFix summary: " ++ summary

/-- The success notification; the source passes `pr.url` for both the URL
and the title. -/
def mkPRNotify (cfg : OrchestratorConfig) (error : AuditLogError)
    (repoInfo : RepositoryInfo) (bugId : Option Nat)
    (prUrl summary : String) : PRNotifyInput :=
  { teamId := cfg.teamsTeamId
    channelId := cfg.teamsChannelId
    prUrl := prUrl
    prTitle := prUrl
    repository := repoInfo.fullName
    bugTitle := error.message
    workItemId := bugId
    fixSummary := summary }

def mkMarkMeta (bugId : Option Nat) (prUrl branch runId : String) : MarkMeta :=
  { workItemId := bugId, pullRequestUrl := prUrl, branch := branch, ozRunId := runId }

def mkFixInfo (bugId : Option Nat) (prUrl branch fixedAt : String) : FixInfo :=
  { workItemId := bugId, pullRequestUrl := prUrl, branch := branch, fixedAt := fixedAt }


/-- `BugFixOrchestratorService.processError`: the single-error workflow.
Status starts at `initializing`; `updateStatus` calls are recorded as
`Eff.stage` entries.  Note there is no `finding_repository` update in the
source: repository resolution runs while the status still reads
`parsing_error`. -/
def processErrorCore (p : Ports) (cfg : OrchestratorConfig) (error : AuditLogError)
    (stackTrace : StackTrace) : FixResult × List Eff :=
  match findRepository p.github none error stackTrace with
  | (.error msg, g) =>
    failWorkflow p cfg error .parsing_error msg
      ([.stage .parsing_error] ++ g.map Eff.gh)
  | (.ok none, g) =>
    failWorkflow p cfg error .parsing_error
      ("Could not identify repository for error " ++ error.id)
      ([.stage .parsing_error] ++ g.map Eff.gh)
  | (.ok (some repoInfo), g) =>
    let effs3 := [Eff.stage .parsing_error] ++ g.map Eff.gh
      ++ [.stage .creating_work_item, .bugCreate (mkBugInput cfg error stackTrace repoInfo)]
    match p.devops.createBug (mkBugInput cfg error stackTrace repoInfo) with
    | .error m => failWorkflow p cfg error .creating_work_item m effs3
    | .ok bugWorkItem =>
      let effs4 := effs3 ++ [.stage .creating_branch,
        .branchCreate repoInfo.owner repoInfo.name (branchNameOf error) repoInfo.defaultBranch]
      match p.github.createBranch repoInfo.owner repoInfo.name (branchNameOf error)
          repoInfo.defaultBranch with
      | .error m => failWorkflow p cfg error .creating_branch m effs4
      | .ok _ =>
        let effs5 := effs4 ++ [.stage .running_oz_agent,
          .ozRun (mkOzInput cfg error stackTrace repoInfo bugWorkItem.id)]
        match p.oz.fixBug (mkOzInput cfg error stackTrace repoInfo bugWorkItem.id) with
        | .error m => failWorkflow p cfg error .running_oz_agent m effs5
        | .ok ozResult =>
          if !ozResult.success then
            failWorkflow p cfg error .running_oz_agent
              ("Oz agent failed to fix bug: " ++ (ozResult.error.getD "undefined"))
              effs5
          else
            let effs6 := effs5 ++ [.stage .creating_pull_request,
              .prCreate (mkPRInput error stackTrace repoInfo bugWorkItem.id ozResult.summary)]
            match p.github.createPullRequest
                (mkPRInput error stackTrace repoInfo bugWorkItem.id ozResult.summary) with
            | .error m => failWorkflow p cfg error .creating_pull_request m effs6
            | .ok pr =>
              let effs7 := effs6 ++ [.prLink bugWorkItem.id pr.url]
              match p.devops.linkPullRequest bugWorkItem.id pr.url with
              | .error m => failWorkflow p cfg error .creating_pull_request m effs7
              | .ok _ =>
                let effs8 := effs7
                  ++ [.comment bugWorkItem.id (commentTextOf pr.url ozResult.summary)]
                match p.devops.addComment bugWorkItem.id (commentTextOf pr.url ozResult.summary) with
                | .error m => failWorkflow p cfg error .creating_pull_request m effs8
                | .ok _ =>
                  let effs9 := effs8 ++ [.stage .notifying_team,
                    .notifyPR (mkPRNotify cfg error repoInfo bugWorkItem.id pr.url ozResult.summary)]
                  match p.teams.sendPRNotification
                      (mkPRNotify cfg error repoInfo bugWorkItem.id pr.url ozResult.summary) with
                  | .error m => failWorkflow p cfg error .notifying_team m effs9
                  | .ok _ =>
                    let effs10 := effs9 ++ [.stage .completed, .markProcessed error.id
                      (mkMarkMeta bugWorkItem.id pr.url (branchNameOf error) ozResult.runId)]
                    match p.dynamo.markAsProcessed error.id
                        (mkMarkMeta bugWorkItem.id pr.url (branchNameOf error) ozResult.runId) with
                    | .error m => failWorkflow p cfg error .completed m effs10
                    | .ok _ =>
                      let effs11 := effs10 ++ [.updateFixInfo error.id
                        (mkFixInfo bugWorkItem.id pr.url (branchNameOf error) p.now)]
                      match p.dynamo.updateErrorWithFixInfo error.id
                          (mkFixInfo bugWorkItem.id pr.url (branchNameOf error) p.now) with
                      | .error m => failWorkflow p cfg error .completed m effs11
                      | .ok _ =>
                        ({ success := true
                           errorId := error.id
                           repository := repoInfo.fullName
                           branch := branchNameOf error
                           modifiedFiles := ozResult.filesModified.map (fun f =>
                             { path := f, changeType := .modified,
                               linesAdded := 0, linesRemoved := 0 })
                           pullRequestUrl := some pr.url
                           pullRequestNumber := some pr.number
                           workItemId := bugWorkItem.id
                           fixSummary := ozResult.summary
                           ozRunId := some ozResult.runId
                           timestamp := p.now },
                         effs11)

/-- `BugFixOrchestratorService.processError`; the parse step is split out
into `processErrorCore` purely so that proofs can treat the parsed trace as
an opaque value. -/
def processError (p : Ports) (cfg : OrchestratorConfig) (error : AuditLogError) :
    FixResult × List Eff :=
  processErrorCore p cfg error
    (StackTraceParserService.parse error.stackTrace (some error.message))

/-- The filter `processUnprocessedErrors` passes to the audit store. -/
def wfFilter : ErrFilter :=
  { severity := [.critical, .error], limit := 10 }

/-- `BugFixOrchestratorService.processUnprocessedErrors`: fetch the batch
and run each error through `processError`.  `processError` returns (never
throws: its whole body is one `try`/`catch` whose both arms return a
`FixResult`), so the loop's own `catch` is unreachable and every batch
element contributes exactly one result, in order. -/
def processUnprocessedErrors (p : Ports) (cfg : OrchestratorConfig) :
    Except String (List FixResult) × List Eff :=
  match p.dynamo.getUnprocessedErrors wfFilter with
  | .error m => (.error m, [])
  | .ok errors =>
    let runs := errors.map (processError p cfg)
    (.ok (runs.map (·.1)), (runs.map (·.2)).flatten)

/-- The status-stage transition recorded by an effect, if any. -/
def stageEff : Eff → Option FixWorkflowStage
  | .stage s => some s
  | _ => none

/-- The ordered status-stage transitions of an effect log. -/
def stagesOf (effs : List Eff) : List FixWorkflowStage :=
  effs.filterMap stageEff

/-- The stages `updateStatus` can traverse, in workflow order; note that
`finding_repository` is absent. -/
def wfStageOrder : List FixWorkflowStage :=
  [.parsing_error, .creating_work_item, .creating_branch, .running_oz_agent,
   .creating_pull_request, .notifying_team, .completed]

/-! ## Demonstration fixtures (used by witness theorems) -/

/-- A GitHub port where lookups of the repository name `"bad"` miss and all
other lookups hit; search finds nothing. -/
def demoGh : GitHubPort :=
  { getRepository := fun o r =>
      if r = "bad" then .ok none
      else .ok (some { defaultBranch := "main", fullName := o ++ "/" ++ r, url := "u" })
    searchRepositories := fun _ => .ok []
    createBranch := fun _ _ _ _ => .ok ()
    createPullRequest := fun _ => .ok { url := "http://pr/1", number := 1 } }

def demoErrorA : AuditLogError :=
  { id := "e-a", timestamp := "t", message := "boom a", stackTrace := "",
    severity := .critical, source := "svc-a", environment := "prod",
    repository := some "org/alpha" }

/-- This error's repository resolution fails everywhere: the hint lookup
misses, there is no mapping table, the empty trace has no frames, and with
an empty source there are no search terms. -/
def demoErrorB : AuditLogError :=
  { id := "e-b", timestamp := "t", message := "boom b", stackTrace := "",
    severity := .error, source := "", environment := "prod",
    repository := some "org/bad" }

def demoErrorC : AuditLogError :=
  { id := "e-c", timestamp := "t", message := "boom c", stackTrace := "",
    severity := .error, source := "svc-c", environment := "prod",
    repository := some "org/gamma" }

def demoPorts : Ports :=
  { github := demoGh
    devops := { createBug := fun _ => .ok { id := some 7 },
                linkPullRequest := fun _ _ => .ok (),
                addComment := fun _ _ => .ok () }
    teams := { sendPRNotification := fun _ => .ok (),
               sendErrorNotification := fun _ => .ok () }
    oz := { fixBug := fun _ => .ok { runId := "run-1", success := true,
                                     summary := "patched", filesModified := [] } }
    dynamo := { getUnprocessedErrors := fun _ => .ok [demoErrorA, demoErrorB, demoErrorC],
                markAsProcessed := fun _ _ => .ok (),
                updateErrorWithFixInfo := fun _ _ => .ok () }
    now := "2024-01-01T00:00:00Z" }

def demoCfg : OrchestratorConfig :=
  { teamsTeamId := "team", teamsChannelId := "chan" }

/-- A GitHub port whose search always raises; lookups miss. -/
def c6Gh : GitHubPort :=
  { getRepository := fun _ _ => .ok none
    searchRepositories := fun _ => .error "search boom"
    createBranch := fun _ _ _ _ => .ok ()
    createPullRequest := fun _ => .ok { url := "", number := 0 } }

/-- An error that reaches the search heuristic: no hint, no frames, and a
non-empty source providing the single search term. -/
def c6Error : AuditLogError :=
  { id := "e-s", timestamp := "t", message := "m", stackTrace := "",
    severity := .error, source := "svc", environment := "prod" }

/-- A GitHub port whose direct lookups always raise. -/
def c6FailGh : GitHubPort :=
  { getRepository := fun _ _ => .error "lookup down"
    searchRepositories := fun _ => .ok []
    createBranch := fun _ _ _ _ => .ok ()
    createPullRequest := fun _ => .ok { url := "", number := 0 } }

/-- Follows the spec's words (§4.1/§7): the first non-empty line of the raw
text (trimmed), used only to compare the spec's fallback-message rule with
the code's. -/
def specFirstNonEmptyLine (raw : String) : String :=
  ((((jsSplit '\n' raw).map trimJs).find? (fun l => l ≠ "")).getD "")

@[simp]
theorem orElseO_some {r : Caps × List Char} {b : Option (Caps × List Char)} :
    orElseO (some r) b = some r := rfl

@[simp]
theorem orElseO_none {b : Option (Caps × List Char)} :
    orElseO none b = b := rfl

@[simp]
theorem filterMap_const_none {α β : Type} (g : List α) :
    List.filterMap (fun _ => (none : Option β)) g = [] := by
  induction g with
  | nil => rfl
  | cons a t ih => simp [ih]

set_option maxHeartbeats 1000000 in
theorem processErrorCore_errorId (p : Ports) (cfg : OrchestratorConfig) (e : AuditLogError)
    (st : StackTrace) : (processErrorCore p cfg e st).1.errorId = e.id := by
  unfold processErrorCore
  simp only [failWorkflow]
  repeat' split
  all_goals rfl

set_option maxHeartbeats 1000000 in
theorem processErrorCore_fail_shape (p : Ports) (cfg : OrchestratorConfig) (e : AuditLogError)
    (st : StackTrace) :
    (processErrorCore p cfg e st).1.success = true ∨
      ((processErrorCore p cfg e st).1.success = false ∧
       (processErrorCore p cfg e st).1.repository = "" ∧
       (processErrorCore p cfg e st).1.branch = "" ∧
       ((processErrorCore p cfg e st).1.errorMessage).isSome = true) := by
  unfold processErrorCore
  simp only [failWorkflow]
  repeat' split
  all_goals first
    | exact Or.inl rfl
    | exact Or.inr ⟨rfl, rfl, rfl, rfl⟩

set_option maxHeartbeats 2000000 in
set_option linter.unusedTactic false in
theorem processErrorCore_stages (p : Ports) (cfg : OrchestratorConfig) (e : AuditLogError)
    (st : StackTrace) :
    ∃ n, stagesOf (processErrorCore p cfg e st).2 = wfStageOrder.take n := by
  unfold processErrorCore
  simp only [failWorkflow]
  repeat' split
  all_goals first
    | (refine ⟨1, ?_⟩; simp [stagesOf, stageEff, wfStageOrder, Function.comp]; done)
    | (refine ⟨2, ?_⟩; simp [stagesOf, stageEff, wfStageOrder, Function.comp]; done)
    | (refine ⟨3, ?_⟩; simp [stagesOf, stageEff, wfStageOrder, Function.comp]; done)
    | (refine ⟨4, ?_⟩; simp [stagesOf, stageEff, wfStageOrder, Function.comp]; done)
    | (refine ⟨5, ?_⟩; simp [stagesOf, stageEff, wfStageOrder, Function.comp]; done)
    | (refine ⟨6, ?_⟩; simp [stagesOf, stageEff, wfStageOrder, Function.comp]; done)
    | (refine ⟨7, ?_⟩; simp [stagesOf, stageEff, wfStageOrder, Function.comp]; done)

theorem processErrorCore_repo_unresolved (p : Ports) (cfg : OrchestratorConfig)
    (e : AuditLogError) (st : StackTrace)
    (h : (findRepository p.github none e st).1 = .ok none) :
    processErrorCore p cfg e st =
      failWorkflow p cfg e .parsing_error
        ("Could not identify repository for error " ++ e.id)
        ([.stage .parsing_error] ++ (findRepository p.github none e st).2.map Eff.gh) := by
  rcases hF : findRepository p.github none e st with ⟨res, g⟩
  rw [hF] at h
  simp only at h
  subst h
  unfold processErrorCore
  rw [hF]

theorem processErrorCore_repo_error (p : Ports) (cfg : OrchestratorConfig)
    (e : AuditLogError) (st : StackTrace) (msg : String)
    (h : (findRepository p.github none e st).1 = .error msg) :
    processErrorCore p cfg e st =
      failWorkflow p cfg e .parsing_error msg
        ([.stage .parsing_error] ++ (findRepository p.github none e st).2.map Eff.gh) := by
  rcases hF : findRepository p.github none e st with ⟨res, g⟩
  rw [hF] at h
  simp only at h
  subst h
  unfold processErrorCore
  rw [hF]

theorem stage_mem_stagesOf {s : FixWorkflowStage} {effs : List Eff}
    (h : Eff.stage s ∈ effs) : s ∈ stagesOf effs :=
  List.mem_filterMap.mpr ⟨_, h, rfl⟩

/-- C5: the severity-to-priority mapping used when creating the ticket is
the fixed total function critical→1, error→2, warning→3, info→4, the
parallel label mapping is 1 - Critical / 2 - High / 3 - Medium / 4 - Low,
and the severity type admits no values beyond these four. -/
theorem c5_severity_priority_mapping :
    (mapErrorSeverityToBugPriority .critical = 1 ∧
     mapErrorSeverityToBugPriority .error = 2 ∧
     mapErrorSeverityToBugPriority .warning = 3 ∧
     mapErrorSeverityToBugPriority .info = 4) ∧
    (mapErrorSeverityToBugSeverity .critical = "1 - Critical" ∧
     mapErrorSeverityToBugSeverity .error = "2 - High" ∧
     mapErrorSeverityToBugSeverity .warning = "3 - Medium" ∧
     mapErrorSeverityToBugSeverity .info = "4 - Low") ∧
    (∀ s : ErrorSeverity,
      s = .critical ∨ s = .error ∨ s = .warning ∨ s = .info) := by
  refine ⟨⟨rfl, rfl, rfl, rfl⟩, ⟨rfl, rfl, rfl, rfl⟩, ?_⟩
  intro s
  cases s
  · exact Or.inl rfl
  · exact Or.inr (Or.inl rfl)
  · exact Or.inr (Or.inr (Or.inl rfl))
  · exact Or.inr (Or.inr (Or.inr rfl))

/-- C9: every FixResult returned with success = false has empty repository
and branch fields, whichever stage failed. -/
theorem c9_failed_result_empty_fields (p : Ports) (cfg : OrchestratorConfig)
    (e : AuditLogError) (h : (processError p cfg e).1.success = false) :
    (processError p cfg e).1.repository = "" ∧ (processError p cfg e).1.branch = "" := by
  rcases processErrorCore_fail_shape p cfg e
      (StackTraceParserService.parse e.stackTrace (some e.message)) with hs | hs
  · exact absurd hs (by simpa [processError] using h)
  · exact ⟨hs.2.1, hs.2.2.1⟩

/-- Witness for C9 at a concrete failing run. -/
theorem c9_failed_result_empty_fields_witness :
    (processError demoPorts demoCfg demoErrorB).1.success = false ∧
    ((processError demoPorts demoCfg demoErrorB).1.repository = "" ∧
     (processError demoPorts demoCfg demoErrorB).1.branch = "") :=
  ⟨rfl, c9_failed_result_empty_fields demoPorts demoCfg demoErrorB rfl⟩

/-- C7: when repository resolution yields no repository, the run fails with
the repository-not-found message and the ticket-creation collaborator is
never invoked. -/
theorem c7_no_ticket_without_repository (p : Ports) (cfg : OrchestratorConfig)
    (e : AuditLogError)
    (h : (findRepository p.github none e
        (StackTraceParserService.parse e.stackTrace (some e.message))).1 = .ok none) :
    (processError p cfg e).1.success = false ∧
    (processError p cfg e).1.errorMessage =
      some ("Could not identify repository for error " ++ e.id) ∧
    ∀ bi, Eff.bugCreate bi ∉ (processError p cfg e).2 := by
  have hr := processErrorCore_repo_unresolved p cfg e
    (StackTraceParserService.parse e.stackTrace (some e.message)) h
  have hp : processError p cfg e =
      processErrorCore p cfg e
        (StackTraceParserService.parse e.stackTrace (some e.message)) := rfl
  rw [hp, hr]
  refine ⟨rfl, rfl, ?_⟩
  intro bi
  simp [failWorkflow]

/-- Witness for C7 at a concrete unresolvable error. -/
theorem c7_no_ticket_without_repository_witness :
    ((findRepository demoPorts.github none demoErrorB
        (StackTraceParserService.parse demoErrorB.stackTrace (some demoErrorB.message))).1 =
      .ok none) ∧
    ((processError demoPorts demoCfg demoErrorB).1.success = false ∧
     (processError demoPorts demoCfg demoErrorB).1.errorMessage =
       some ("Could not identify repository for error " ++ demoErrorB.id) ∧
     ∀ bi, Eff.bugCreate bi ∉ (processError demoPorts demoCfg demoErrorB).2) :=
  ⟨rfl, c7_no_ticket_without_repository demoPorts demoCfg demoErrorB rfl⟩

/-- C10: during EVERY workflow run the recorded status stages form a prefix
of parsing_error → creating_work_item → … → completed, so the stage
`finding_repository` is never set and `creating_work_item` directly follows
`parsing_error`; moreover, whenever repository resolution fails or misses,
the failure is notified with stage "parsing_error". -/
theorem c10_stage_skips_finding_repository (p : Ports) (cfg : OrchestratorConfig)
    (e : AuditLogError) :
    (Eff.stage .finding_repository ∉ (processError p cfg e).2) ∧
    (∃ n, stagesOf (processError p cfg e).2 = wfStageOrder.take n) ∧
    (((findRepository p.github none e
        (StackTraceParserService.parse e.stackTrace (some e.message))).1 = .ok none ∨
      ∃ m, (findRepository p.github none e
        (StackTraceParserService.parse e.stackTrace (some e.message))).1 = .error m) →
      ∃ msg, Eff.notifyError
        { teamId := cfg.teamsTeamId, channelId := cfg.teamsChannelId,
          errorMessage := msg, errorId := e.id, stage := "parsing_error" } ∈
      (processError p cfg e).2) := by
  have hp : processError p cfg e =
      processErrorCore p cfg e
        (StackTraceParserService.parse e.stackTrace (some e.message)) := rfl
  have hstages := processErrorCore_stages p cfg e
    (StackTraceParserService.parse e.stackTrace (some e.message))
  refine ⟨?_, hp ▸ hstages, ?_⟩
  · intro hmem
    rcases hstages with ⟨n, hn⟩
    have hs : FixWorkflowStage.finding_repository ∈ stagesOf (processError p cfg e).2 :=
      stage_mem_stagesOf hmem
    rw [hp, hn] at hs
    have hsub : FixWorkflowStage.finding_repository ∈ wfStageOrder :=
      List.take_subset n wfStageOrder hs
    simp [wfStageOrder] at hsub
  · intro hres
    rcases hres with h | ⟨m, h⟩
    · have hr := processErrorCore_repo_unresolved p cfg e
        (StackTraceParserService.parse e.stackTrace (some e.message)) h
      rw [hp, hr]
      exact ⟨"Could not identify repository for error " ++ e.id,
        by simp [failWorkflow, stageToString]⟩
    · have hr := processErrorCore_repo_error p cfg e
        (StackTraceParserService.parse e.stackTrace (some e.message)) m h
      rw [hp, hr]
      exact ⟨m, by simp [failWorkflow, stageToString]⟩

/-- Witness for C10 at two concrete runs: a fully progressing successful
run (whose stage sequence is the complete order, with `finding_repository`
absent) and a run whose repository resolution misses (notified with stage
"parsing_error"). -/
theorem c10_stage_skips_finding_repository_witness :
    ((processError demoPorts demoCfg demoErrorA).1.success = true) ∧
    (stagesOf (processError demoPorts demoCfg demoErrorA).2 = wfStageOrder) ∧
    (Eff.stage .finding_repository ∉ (processError demoPorts demoCfg demoErrorA).2) ∧
    (∃ n, stagesOf (processError demoPorts demoCfg demoErrorA).2 = wfStageOrder.take n) ∧
    ((findRepository demoPorts.github none demoErrorB
        (StackTraceParserService.parse demoErrorB.stackTrace (some demoErrorB.message))).1 =
      .ok none) ∧
    (∃ msg, Eff.notifyError
        { teamId := demoCfg.teamsTeamId, channelId := demoCfg.teamsChannelId,
          errorMessage := msg, errorId := demoErrorB.id, stage := "parsing_error" } ∈
      (processError demoPorts demoCfg demoErrorB).2) :=
  ⟨rfl, rfl,
   (c10_stage_skips_finding_repository demoPorts demoCfg demoErrorA).1,
   (c10_stage_skips_finding_repository demoPorts demoCfg demoErrorA).2.1,
   rfl,
   (c10_stage_skips_finding_repository demoPorts demoCfg demoErrorB).2.2 (Or.inl rfl)⟩

/-- C1: for a successfully fetched batch, the workflow returns exactly one
FixResult per input error, in order; each result is the isolated outcome of
its own error (no cross-error influence), and every failed result carries a
populated error message. -/
theorem c1_one_result_per_error (p : Ports) (cfg : OrchestratorConfig)
    (errs : List AuditLogError)
    (h : p.dynamo.getUnprocessedErrors wfFilter = .ok errs) :
    ∃ results : List FixResult,
      (processUnprocessedErrors p cfg).1 = .ok results ∧
      results.length = errs.length ∧
      (∀ i : Nat, ∀ hi : i < results.length, ∀ hj : i < errs.length,
        results.get ⟨i, hi⟩ = (processError p cfg (errs.get ⟨i, hj⟩)).1 ∧
        (results.get ⟨i, hi⟩).errorId = (errs.get ⟨i, hj⟩).id) ∧
      (∀ r ∈ results, r.success = false → (r.errorMessage).isSome = true) := by
  refine ⟨(errs.map (processError p cfg)).map (·.1), ?_, by simp, ?_, ?_⟩
  · unfold processUnprocessedErrors
    rw [h]
  · intro i hi hj
    have hget : ((errs.map (processError p cfg)).map (·.1)).get ⟨i, hi⟩ =
        (processError p cfg (errs.get ⟨i, hj⟩)).1 := by
      simp [List.getElem_map]
    refine ⟨hget, ?_⟩
    rw [hget]
    exact processErrorCore_errorId p cfg (errs.get ⟨i, hj⟩) _
  · intro r hr hfail
    simp only [List.map_map, List.mem_map] at hr
    rcases hr with ⟨e, _, rfl⟩
    rcases processErrorCore_fail_shape p cfg e
        (StackTraceParserService.parse e.stackTrace (some e.message)) with hs | hs
    · exact absurd hs (by simpa using hfail)
    · exact hs.2.2.2

/-- Witness for C1: the three-error demonstration batch (the second error's
repository resolution fails; the other two succeed). -/
theorem c1_one_result_per_error_witness :
    (demoPorts.dynamo.getUnprocessedErrors wfFilter =
      .ok [demoErrorA, demoErrorB, demoErrorC]) ∧
    (∃ results : List FixResult,
      (processUnprocessedErrors demoPorts demoCfg).1 = .ok results ∧
      results.length = ([demoErrorA, demoErrorB, demoErrorC] : List AuditLogError).length ∧
      (∀ i : Nat, ∀ hi : i < results.length,
        ∀ hj : i < ([demoErrorA, demoErrorB, demoErrorC] : List AuditLogError).length,
        results.get ⟨i, hi⟩ =
          (processError demoPorts demoCfg
            (([demoErrorA, demoErrorB, demoErrorC] : List AuditLogError).get ⟨i, hj⟩)).1 ∧
        (results.get ⟨i, hi⟩).errorId =
          (([demoErrorA, demoErrorB, demoErrorC] : List AuditLogError).get ⟨i, hj⟩).id) ∧
      (∀ r ∈ results, r.success = false → (r.errorMessage).isSome = true)) :=
  ⟨rfl, c1_one_result_per_error demoPorts demoCfg [demoErrorA, demoErrorB, demoErrorC] rfl⟩

/-- C8 counterexample: with a project configured but neither the source
`"zzz-svc"` nor the repository name `"corelib"` containing any table
keyword, the derived area path is the project root, not `undefined` as the
claim states. -/
theorem c8_area_path_counterexample :
    (sourceToArea.find? (fun kv => strContains (toLowerJs "zzz-svc") kv.1) = none) ∧
    (sourceToArea.find? (fun kv => strContains (toLowerJs "corelib") kv.1) = none) ∧
    determineAreaPath
      { teamsTeamId := "team", teamsChannelId := "chan", devOpsProject := some "Proj" }
      { id := "e-x", timestamp := "t", message := "m", stackTrace := "",
        severity := .error, source := "zzz-svc", environment := "prod" }
      { owner := "o", name := "corelib", fullName := "o/corelib", url := "u",
        defaultBranch := "main" } = some "Proj" :=
  ⟨rfl, rfl, rfl⟩

/-- C8 (amended): with no (truthy) project context the area path is
undefined; otherwise the error's lowercased source is tested against the
fixed keyword table first (first match wins), then the lowercased
repository short name, and when nothing matches the area path is the
project root (not undefined). -/
theorem c8_area_path_amended (cfg : OrchestratorConfig) (e : AuditLogError)
    (ri : RepositoryInfo) :
    (cfg.devOpsProject = none → determineAreaPath cfg e ri = none) ∧
    (∀ project, cfg.devOpsProject = some project → project ≠ "" →
      ((∀ kv, sourceToArea.find? (fun kv2 => strContains (toLowerJs e.source) kv2.1) = some kv →
          determineAreaPath cfg e ri = some (project ++ "\\" ++ kv.2)) ∧
       (sourceToArea.find? (fun kv2 => strContains (toLowerJs e.source) kv2.1) = none →
        ∀ kv, sourceToArea.find? (fun kv2 => strContains (toLowerJs ri.name) kv2.1) = some kv →
          determineAreaPath cfg e ri = some (project ++ "\\" ++ kv.2)) ∧
       (sourceToArea.find? (fun kv2 => strContains (toLowerJs e.source) kv2.1) = none →
        sourceToArea.find? (fun kv2 => strContains (toLowerJs ri.name) kv2.1) = none →
          determineAreaPath cfg e ri = some project))) := by
  constructor
  · intro h
    simp [determineAreaPath, h]
  · intro project hp hne
    refine ⟨?_, ?_, ?_⟩
    · intro kv hkv
      simp [determineAreaPath, hp, hne, hkv]
    · intro hn kv hkv
      simp [determineAreaPath, hp, hne, hn, hkv]
    · intro hn hn2
      simp [determineAreaPath, hp, hne, hn, hn2]

/-- Witness for C8 (amended) at concrete inputs: the source keyword
`user-service` wins over the repository name. -/
theorem c8_area_path_amended_witness :
    (({ teamsTeamId := "team", teamsChannelId := "chan",
        devOpsProject := some "Proj" } : OrchestratorConfig).devOpsProject =
      some "Proj") ∧
    determineAreaPath
      { teamsTeamId := "team", teamsChannelId := "chan", devOpsProject := some "Proj" }
      { id := "e-y", timestamp := "t", message := "m", stackTrace := "",
        severity := .error, source := "my-user-service", environment := "prod" }
      { owner := "o", name := "frontend", fullName := "o/frontend", url := "u",
        defaultBranch := "main" } = some ("Proj" ++ "\\" ++ "User Management") :=
  ⟨rfl,
   ((c8_area_path_amended
      { teamsTeamId := "team", teamsChannelId := "chan", devOpsProject := some "Proj" }
      { id := "e-y", timestamp := "t", message := "m", stackTrace := "",
        severity := .error, source := "my-user-service", environment := "prod" }
      { owner := "o", name := "frontend", fullName := "o/frontend", url := "u",
        defaultBranch := "main" }).2 "Proj" rfl (by decide)).1
    ("user-service", "User Management") rfl⟩

/-- C2: an explicit well-formed repository hint whose direct lookup returns
a repository record resolves immediately — the call log is exactly that one
lookup, so the mapping table, the stack-trace scan and the search are never
consulted; a malformed hint (missing/empty owner or repo segment) is no
match, and a hint whose lookup returns null falls through — both proceed to
the rest of the chain (steps 2–4). -/
theorem c2_hint_short_circuits (gh : GitHubPort)
    (mappings : Option (List (String × String))) (e : AuditLogError)
    (st : StackTrace) :
    (∀ hint owner repo rest data,
      e.repository = some hint →
      jsSplit '/' hint = owner :: repo :: rest →
      owner ≠ "" → repo ≠ "" →
      gh.getRepository owner repo = .ok (some data) →
      findRepository gh mappings e st =
        (.ok (some { owner := owner, name := repo, fullName := data.fullName,
                     url := data.url, defaultBranch := data.defaultBranch }),
         [.getRepo owner repo])) ∧
    (∀ hint,
      e.repository = some hint →
      (∀ o r rest, jsSplit '/' hint = o :: r :: rest → o = "" ∨ r = "") →
      findRepository gh mappings e st = repoStep2 gh mappings e st) ∧
    (∀ hint owner repo rest,
      e.repository = some hint →
      jsSplit '/' hint = owner :: repo :: rest →
      owner ≠ "" → repo ≠ "" →
      gh.getRepository owner repo = .ok none →
      findRepository gh mappings e st =
        ((repoStep2 gh mappings e st).1,
         .getRepo owner repo :: (repoStep2 gh mappings e st).2)) := by
  refine ⟨?_, ?_, ?_⟩
  · intro hint owner repo rest data h1 h2 h3 h4 h5
    have hne : hint ≠ "" := by
      intro hh
      rw [hh] at h2
      simp [jsSplit, splitOnCharL] at h2
    unfold findRepository
    rw [h1]
    simp only [if_neg hne]
    unfold getRepositoryInfo
    rw [h2]
    simp [h3, h4, h5]
  · intro hint h1 hmal
    by_cases hne : hint = ""
    · unfold findRepository
      rw [h1]
      simp [hne]
    · have hinfo : getRepositoryInfo gh hint = (.ok none, []) := by
        unfold getRepositoryInfo
        rcases hsplit : jsSplit '/' hint with _ | ⟨o, _ | ⟨r, rest⟩⟩
        · rfl
        · rfl
        · have := hmal o r rest hsplit
          have hor : (o = "" || r = "") = true := by
            rcases this with h | h <;> simp [h]
          simp [hor]
      unfold findRepository
      rw [h1]
      simp only [if_neg hne]
      rw [hinfo]
      simp
  · intro hint owner repo rest h1 h2 h3 h4 h5
    have hne : hint ≠ "" := by
      intro hh
      rw [hh] at h2
      simp [jsSplit, splitOnCharL] at h2
    unfold findRepository
    rw [h1]
    simp only [if_neg hne]
    unfold getRepositoryInfo
    rw [h2]
    simp [h3, h4, h5]

/-- Witness for C2 at a concrete hinted error: one lookup, no search. -/
theorem c2_hint_short_circuits_witness :
    (demoErrorA.repository = some "org/alpha") ∧
    (jsSplit '/' "org/alpha" = ["org", "alpha"]) ∧
    findRepository demoGh none demoErrorA
        (StackTraceParserService.parse demoErrorA.stackTrace (some demoErrorA.message)) =
      (.ok (some { owner := "org", name := "alpha", fullName := "org" ++ "/" ++ "alpha",
                   url := "u", defaultBranch := "main" }),
       [.getRepo "org" "alpha"]) :=
  ⟨rfl, rfl,
   (c2_hint_short_circuits demoGh none demoErrorA
      (StackTraceParserService.parse demoErrorA.stackTrace (some demoErrorA.message))).1
     "org/alpha" "org" "alpha" [] _ rfl rfl (by decide) (by decide) rfl⟩

theorem getRepositoryInfo_error_src (gh : GitHubPort) (fn msg : String)
    (log : List GhCall) (h : getRepositoryInfo gh fn = (.error msg, log)) :
    ∃ o r, GhCall.getRepo o r ∈ log ∧ gh.getRepository o r = .error msg := by
  unfold getRepositoryInfo at h
  rcases hsplit : jsSplit '/' fn with _ | ⟨owner, _ | ⟨repo, rest⟩⟩ <;>
    rw [hsplit] at h <;> try dsimp only at h
  · simp at h
  · simp at h
  · by_cases hc : (owner = "" || repo = "") = true
    · rw [if_pos hc] at h
      simp at h
    · rw [if_neg hc] at h
      rcases hrepo : gh.getRepository owner repo with e | od <;>
        rw [hrepo] at h <;> try dsimp only at h
      · simp only [Prod.mk.injEq, Except.error.injEq] at h
        obtain ⟨h1, h2⟩ := h
        subst h2
        exact ⟨owner, repo, by simp, h1 ▸ hrepo⟩
      · rcases od with _ | d <;> simp at h

theorem viaRepoFieldAttempt_error_src (gh : GitHubPort) (f : StackFrame)
    (next : Except String (Option RepositoryInfo) × List GhCall) (msg : String)
    (log : List GhCall)
    (hnext : ∀ log2, next = (.error msg, log2) →
      ∃ o r, GhCall.getRepo o r ∈ log2 ∧ gh.getRepository o r = .error msg)
    (h : viaRepoFieldAttempt gh f next = (.error msg, log)) :
    ∃ o r, GhCall.getRepo o r ∈ log ∧ gh.getRepository o r = .error msg := by
  unfold viaRepoFieldAttempt at h
  rcases hrep : f.repository with _ | r <;> rw [hrep] at h <;> try dsimp only at h
  · exact hnext log h
  · rcases hinfo : getRepositoryInfo gh r with ⟨ires, ilog⟩
    rw [hinfo] at h
    rcases ires with e | io <;> try dsimp only at h
    · simp only [Prod.mk.injEq, Except.error.injEq] at h
      obtain ⟨h1, h2⟩ := h
      subst h2
      exact getRepositoryInfo_error_src gh r msg ilog (h1 ▸ hinfo)
    · rcases io with _ | info <;> try dsimp only at h
      · simp only [Prod.mk.injEq] at h
        obtain ⟨h1, h2⟩ := h
        rcases hv : next with ⟨vres, vlog⟩
        rw [hv] at h1 h2
        dsimp only at h1 h2
        subst h2
        rcases hnext vlog (by rw [hv, h1]) with ⟨o, rr, hm, hp⟩
        exact ⟨o, rr, by simp [hm], hp⟩
      · simp at h

theorem scanFramesForRepo_error_src (gh : GitHubPort) (msg : String) :
    ∀ frames log, scanFramesForRepo gh frames = (.error msg, log) →
    ∃ o r, GhCall.getRepo o r ∈ log ∧ gh.getRepository o r = .error msg := by
  intro frames
  induction frames with
  | nil => intro log h; simp [scanFramesForRepo] at h
  | cons f rest ih =>
    intro log h
    unfold scanFramesForRepo at h
    rcases hfind : reFind pGithubPath f.filePath with _ | caps <;>
      rw [hfind] at h <;> try dsimp only at h
    · exact viaRepoFieldAttempt_error_src gh f _ msg log (fun log2 hl => ih log2 hl) h
    · by_cases hc : ((capStr caps 1).getD "" ≠ "" ∧ (capStr caps 2).getD "" ≠ "")
      · rw [if_pos hc] at h
        rcases hinfo : getRepositoryInfo gh
            ((capStr caps 1).getD "" ++ "/" ++ (capStr caps 2).getD "") with ⟨ires, ilog⟩
        rw [hinfo] at h
        rcases ires with e | io <;> try dsimp only at h
        · simp only [Prod.mk.injEq, Except.error.injEq] at h
          obtain ⟨h1, h2⟩ := h
          subst h2
          exact getRepositoryInfo_error_src gh _ msg ilog (h1 ▸ hinfo)
        · rcases io with _ | info <;> try dsimp only at h
          · simp only [Prod.mk.injEq] at h
            obtain ⟨h1, h2⟩ := h
            subst h2
            rcases hv : viaRepoFieldAttempt gh f (scanFramesForRepo gh rest) with ⟨vres, vlog⟩
            rw [hv] at h1
            dsimp only at h1
            subst h1
            rcases viaRepoFieldAttempt_error_src gh f _ msg vlog
                (fun log2 hl => ih log2 hl) hv with ⟨o, rr, hm, hp⟩
            exact ⟨o, rr, by simp [hm], hp⟩
          · simp at h
      · rw [if_neg hc] at h
        exact viaRepoFieldAttempt_error_src gh f _ msg log (fun log2 hl => ih log2 hl) h

theorem repoStep3_error_src (gh : GitHubPort) (e : AuditLogError) (st : StackTrace)
    (msg : String) (log : List GhCall) (h : repoStep3 gh e st = (.error msg, log)) :
    ∃ o r, GhCall.getRepo o r ∈ log ∧ gh.getRepository o r = .error msg := by
  unfold repoStep3 at h
  rcases hscan : findRepositoryFromStackTrace gh st with ⟨sres, slog⟩
  rw [hscan] at h
  rcases sres with e2 | so <;> try dsimp only at h
  · simp only [Prod.mk.injEq, Except.error.injEq] at h
    obtain ⟨h1, h2⟩ := h
    subst h2
    unfold findRepositoryFromStackTrace at hscan
    exact scanFramesForRepo_error_src gh msg _ slog (h1 ▸ hscan)
  · rcases so with _ | info <;> try dsimp only at h
    · simp [repoStep4] at h
    · simp at h

theorem repoStep2_error_src (gh : GitHubPort)
    (maps : Option (List (String × String))) (e : AuditLogError) (st : StackTrace)
    (msg : String) (log : List GhCall)
    (h : repoStep2 gh maps e st = (.error msg, log)) :
    ∃ o r, GhCall.getRepo o r ∈ log ∧ gh.getRepository o r = .error msg := by
  unfold repoStep2 at h
  rcases hmap : maps.bind (fun m => (m.find? (fun kv => kv.1 = e.source)).map (·.2)) with
    _ | mapped <;> rw [hmap] at h <;> try dsimp only at h
  · exact repoStep3_error_src gh e st msg log h
  · rcases hinfo : getRepositoryInfo gh mapped with ⟨ires, ilog⟩
    rw [hinfo] at h
    rcases ires with e2 | io <;> try dsimp only at h
    · simp only [Prod.mk.injEq, Except.error.injEq] at h
      obtain ⟨h1, h2⟩ := h
      subst h2
      exact getRepositoryInfo_error_src gh mapped msg ilog (h1 ▸ hinfo)
    · rcases io with _ | info <;> try dsimp only at h
      · simp only [Prod.mk.injEq] at h
        obtain ⟨h1, h2⟩ := h
        subst h2
        rcases hs3 : repoStep3 gh e st with ⟨s3res, s3log⟩
        rw [hs3] at h1
        dsimp only at h1
        subst h1
        rcases repoStep3_error_src gh e st msg s3log hs3 with ⟨o, rr, hm, hp⟩
        exact ⟨o, rr, by simp [hm], hp⟩
      · simp at h

theorem findRepository_error_src (gh : GitHubPort)
    (maps : Option (List (String × String))) (e : AuditLogError) (st : StackTrace)
    (msg : String) (log : List GhCall)
    (h : findRepository gh maps e st = (.error msg, log)) :
    ∃ o r, GhCall.getRepo o r ∈ log ∧ gh.getRepository o r = .error msg := by
  unfold findRepository at h
  rcases hrep : e.repository with _ | hint <;> rw [hrep] at h <;> try dsimp only at h
  · exact repoStep2_error_src gh maps e st msg log h
  · by_cases hne : hint = ""
    · rw [if_pos hne] at h
      exact repoStep2_error_src gh maps e st msg log h
    · rw [if_neg hne] at h
      rcases hinfo : getRepositoryInfo gh hint with ⟨ires, ilog⟩
      rw [hinfo] at h
      rcases ires with e2 | io <;> try dsimp only at h
      · simp only [Prod.mk.injEq, Except.error.injEq] at h
        obtain ⟨h1, h2⟩ := h
        subst h2
        exact getRepositoryInfo_error_src gh hint msg ilog (h1 ▸ hinfo)
      · rcases io with _ | info <;> try dsimp only at h
        · simp only [Prod.mk.injEq] at h
          obtain ⟨h1, h2⟩ := h
          subst h2
          rcases hs2 : repoStep2 gh maps e st with ⟨s2res, s2log⟩
          rw [hs2] at h1
          dsimp only at h1
          subst h1
          rcases repoStep2_error_src gh maps e st msg s2log hs2 with ⟨o, rr, hm, hp⟩
          exact ⟨o, rr, by simp [hm], hp⟩
        · simp at h

set_option linter.unusedTactic false in
theorem getRepositoryInfo_getRepo_prop (gh : GitHubPort) (fn o r m : String)
    (hmem : GhCall.getRepo o r ∈ (getRepositoryInfo gh fn).2)
    (hrep : gh.getRepository o r = .error m) :
    (getRepositoryInfo gh fn).1 = .error m := by
  unfold getRepositoryInfo at hmem ⊢
  rcases hsplit : jsSplit '/' fn with _ | ⟨owner, _ | ⟨repo, rest⟩⟩ <;>
    (try rw [hsplit] at hmem) <;> (try rw [hsplit]) <;> try dsimp only at hmem ⊢
  · simp at hmem
  · simp at hmem
  · by_cases hc : (owner = "" || repo = "") = true
    · rw [if_pos hc] at hmem ⊢
      simp at hmem
    · rw [if_neg hc] at hmem ⊢
      rcases hrepo : gh.getRepository owner repo with e | od <;>
        (try rw [hrepo] at hmem) <;> (try rw [hrepo]) <;> try dsimp only at hmem ⊢
      · simp only [List.mem_singleton, GhCall.getRepo.injEq] at hmem
        obtain ⟨rfl, rfl⟩ := hmem
        rw [hrep] at hrepo
        exact congrArg Except.error (Except.error.inj hrepo).symm
      · rcases od with _ | d <;> try dsimp only at hmem ⊢
        · simp only [List.mem_singleton, GhCall.getRepo.injEq] at hmem
          obtain ⟨rfl, rfl⟩ := hmem
          rw [hrep] at hrepo
          exact absurd hrepo (by simp)
        · simp only [List.mem_singleton, GhCall.getRepo.injEq] at hmem
          obtain ⟨rfl, rfl⟩ := hmem
          rw [hrep] at hrepo
          exact absurd hrepo (by simp)

theorem repoStep4_no_getRepo (gh : GitHubPort) (e : AuditLogError) (st : StackTrace)
    (o r : String) : GhCall.getRepo o r ∉ (repoStep4 gh e st).2 := by
  unfold repoStep4 searchForRepository
  dsimp only
  by_cases hc : (buildSearchTerms e st).isEmpty = true
  · rw [if_pos hc]
    simp
  · rw [if_neg hc]
    rcases hs : gh.searchRepositories (intercalateJs " " (buildSearchTerms e st)) with
      e2 | (_ | ⟨first, rest⟩) <;> simp

set_option linter.unusedTactic false in
theorem viaRepoFieldAttempt_getRepo_prop (gh : GitHubPort) (f : StackFrame)
    (next : Except String (Option RepositoryInfo) × List GhCall) (o r m : String)
    (hnext : GhCall.getRepo o r ∈ next.2 → next.1 = .error m)
    (hmem : GhCall.getRepo o r ∈ (viaRepoFieldAttempt gh f next).2)
    (hrep : gh.getRepository o r = .error m) :
    (viaRepoFieldAttempt gh f next).1 = .error m := by
  unfold viaRepoFieldAttempt at hmem ⊢
  rcases hf : f.repository with _ | rr <;> (try rw [hf] at hmem) <;> (try rw [hf]) <;>
    try dsimp only at hmem ⊢
  · exact hnext hmem
  · rcases hinfo : getRepositoryInfo gh rr with ⟨ires, ilog⟩
    try rw [hinfo] at hmem
    try rw [hinfo]
    rcases ires with e2 | io <;> try dsimp only at hmem ⊢
    · have h2 := getRepositoryInfo_getRepo_prop gh rr o r m (by rw [hinfo]; exact hmem) hrep
      rw [hinfo] at h2
      exact h2
    · rcases io with _ | info <;> try dsimp only at hmem ⊢
      · rcases List.mem_append.mp hmem with hm | hm
        · have h2 := getRepositoryInfo_getRepo_prop gh rr o r m (by rw [hinfo]; exact hm) hrep
          rw [hinfo] at h2
          exact absurd h2 (by simp)
        · exact hnext hm
      · have h2 := getRepositoryInfo_getRepo_prop gh rr o r m (by rw [hinfo]; exact hmem) hrep
        rw [hinfo] at h2
        exact absurd h2 (by simp)

set_option linter.unusedTactic false in
theorem scanFramesForRepo_getRepo_prop (gh : GitHubPort) (o r m : String)
    (hrep : gh.getRepository o r = .error m) :
    ∀ frames, GhCall.getRepo o r ∈ (scanFramesForRepo gh frames).2 →
    (scanFramesForRepo gh frames).1 = .error m := by
  intro frames
  induction frames with
  | nil =>
    intro hmem
    simp [scanFramesForRepo] at hmem
  | cons f rest ih =>
    intro hmem
    unfold scanFramesForRepo at hmem ⊢
    rcases hfind : reFind pGithubPath f.filePath with _ | caps <;>
      (try rw [hfind] at hmem) <;> (try rw [hfind]) <;> try dsimp only at hmem ⊢
    · exact viaRepoFieldAttempt_getRepo_prop gh f _ o r m ih hmem hrep
    · by_cases hc : ((capStr caps 1).getD "" ≠ "" ∧ (capStr caps 2).getD "" ≠ "")
      · rw [if_pos hc] at hmem ⊢
        rcases hinfo : getRepositoryInfo gh
            ((capStr caps 1).getD "" ++ "/" ++ (capStr caps 2).getD "") with ⟨ires, ilog⟩
        try rw [hinfo] at hmem
        try rw [hinfo]
        rcases ires with e2 | io <;> try dsimp only at hmem ⊢
        · have h2 := getRepositoryInfo_getRepo_prop gh _ o r m (by rw [hinfo]; exact hmem) hrep
          rw [hinfo] at h2
          exact h2
        · rcases io with _ | info <;> try dsimp only at hmem ⊢
          · rcases List.mem_append.mp hmem with hm | hm
            · have h2 := getRepositoryInfo_getRepo_prop gh _ o r m (by rw [hinfo]; exact hm) hrep
              rw [hinfo] at h2
              exact absurd h2 (by simp)
            · exact viaRepoFieldAttempt_getRepo_prop gh f _ o r m ih hm hrep
          · have h2 := getRepositoryInfo_getRepo_prop gh _ o r m (by rw [hinfo]; exact hmem) hrep
            rw [hinfo] at h2
            exact absurd h2 (by simp)
      · rw [if_neg hc] at hmem ⊢
        exact viaRepoFieldAttempt_getRepo_prop gh f _ o r m ih hmem hrep

set_option linter.unusedTactic false in
theorem repoStep3_getRepo_prop (gh : GitHubPort) (e : AuditLogError)
    (st : StackTrace) (o r m : String)
    (hrep : gh.getRepository o r = .error m)
    (hmem : GhCall.getRepo o r ∈ (repoStep3 gh e st).2) :
    (repoStep3 gh e st).1 = .error m := by
  unfold repoStep3 at hmem ⊢
  rcases hscan : findRepositoryFromStackTrace gh st with ⟨sres, slog⟩
  have hscan2 : scanFramesForRepo gh (st.frames.filter (·.isUserCode)) = (sres, slog) :=
    hscan
  try rw [hscan] at hmem
  try rw [hscan]
  rcases sres with e2 | so <;> try dsimp only at hmem ⊢
  · have h2 := scanFramesForRepo_getRepo_prop gh o r m hrep _ (by rw [hscan2]; exact hmem)
    rw [hscan2] at h2
    exact h2
  · rcases so with _ | info <;> try dsimp only at hmem ⊢
    · rcases List.mem_append.mp hmem with hm | hm
      · have h2 := scanFramesForRepo_getRepo_prop gh o r m hrep _ (by rw [hscan2]; exact hm)
        rw [hscan2] at h2
        exact absurd h2 (by simp)
      · exact absurd hm (repoStep4_no_getRepo gh e st o r)
    · have h2 := scanFramesForRepo_getRepo_prop gh o r m hrep _ (by rw [hscan2]; exact hmem)
      rw [hscan2] at h2
      exact absurd h2 (by simp)

set_option linter.unusedTactic false in
theorem repoStep2_getRepo_prop (gh : GitHubPort)
    (maps : Option (List (String × String))) (e : AuditLogError)
    (st : StackTrace) (o r m : String)
    (hrep : gh.getRepository o r = .error m)
    (hmem : GhCall.getRepo o r ∈ (repoStep2 gh maps e st).2) :
    (repoStep2 gh maps e st).1 = .error m := by
  unfold repoStep2 at hmem ⊢
  rcases hmap : maps.bind (fun mm => (mm.find? (fun kv => kv.1 = e.source)).map (·.2)) with
    _ | mapped <;> (try rw [hmap] at hmem) <;> (try rw [hmap]) <;> try dsimp only at hmem ⊢
  · exact repoStep3_getRepo_prop gh e st o r m hrep hmem
  · rcases hinfo : getRepositoryInfo gh mapped with ⟨ires, ilog⟩
    try rw [hinfo] at hmem
    try rw [hinfo]
    rcases ires with e2 | io <;> try dsimp only at hmem ⊢
    · have h2 := getRepositoryInfo_getRepo_prop gh mapped o r m (by rw [hinfo]; exact hmem) hrep
      rw [hinfo] at h2
      exact h2
    · rcases io with _ | info <;> try dsimp only at hmem ⊢
      · rcases List.mem_append.mp hmem with hm | hm
        · have h2 := getRepositoryInfo_getRepo_prop gh mapped o r m (by rw [hinfo]; exact hm) hrep
          rw [hinfo] at h2
          exact absurd h2 (by simp)
        · exact repoStep3_getRepo_prop gh e st o r m hrep hm
      · have h2 := getRepositoryInfo_getRepo_prop gh mapped o r m (by rw [hinfo]; exact hmem) hrep
        rw [hinfo] at h2
        exact absurd h2 (by simp)

set_option linter.unusedTactic false in
theorem findRepository_getRepo_prop (gh : GitHubPort)
    (maps : Option (List (String × String))) (e : AuditLogError)
    (st : StackTrace) (o r m : String)
    (hrep : gh.getRepository o r = .error m)
    (hmem : GhCall.getRepo o r ∈ (findRepository gh maps e st).2) :
    (findRepository gh maps e st).1 = .error m := by
  unfold findRepository at hmem ⊢
  rcases hrepo : e.repository with _ | hint <;> (try rw [hrepo] at hmem) <;>
    (try rw [hrepo]) <;> try dsimp only at hmem ⊢
  · exact repoStep2_getRepo_prop gh maps e st o r m hrep hmem
  · by_cases hne : hint = ""
    · rw [if_pos hne] at hmem ⊢
      exact repoStep2_getRepo_prop gh maps e st o r m hrep hmem
    · rw [if_neg hne] at hmem ⊢
      rcases hinfo : getRepositoryInfo gh hint with ⟨ires, ilog⟩
      try rw [hinfo] at hmem
      try rw [hinfo]
      rcases ires with e2 | io <;> try dsimp only at hmem ⊢
      · have h2 := getRepositoryInfo_getRepo_prop gh hint o r m (by rw [hinfo]; exact hmem) hrep
        rw [hinfo] at h2
        exact h2
      · rcases io with _ | info <;> try dsimp only at hmem ⊢
        · rcases List.mem_append.mp hmem with hm | hm
          · have h2 := getRepositoryInfo_getRepo_prop gh hint o r m (by rw [hinfo]; exact hm) hrep
            rw [hinfo] at h2
            exact absurd h2 (by simp)
          · exact repoStep2_getRepo_prop gh maps e st o r m hrep hm
        · have h2 := getRepositoryInfo_getRepo_prop gh hint o r m (by rw [hinfo]; exact hmem) hrep
          rw [hinfo] at h2
          exact absurd h2 (by simp)

/-- C6 counterexample: the resolver's fourth heuristic swallows a failing
search call.  With an error that reaches the search (no hint, no mapping,
no frames, non-empty source), the search collaborator raises, the call is
made (it is in the log), yet `findRepository` returns ok/none instead of
propagating the failure. -/
theorem c6_search_failure_swallowed_counterexample :
    (c6Gh.searchRepositories "svc" = .error "search boom") ∧
    findRepository c6Gh none c6Error
        (StackTraceParserService.parse c6Error.stackTrace (some c6Error.message)) =
      (.ok none, [.search "svc"]) :=
  ⟨rfl, rfl⟩

/-- C6 (amended): a failure raised by a direct lookup the resolver actually
performed propagates out as-is — any logged getRepository call whose port
response is an error forces exactly that error result (forward direction);
conversely every raised failure originates from such a lookup, and when all
direct lookups are healthy the resolver returns ok, so not-found is an
ok/none outcome and never a throw.  A failing search, by contrast, is
swallowed (see the counterexample). -/
theorem c6_lookup_failures_propagate (gh : GitHubPort)
    (maps : Option (List (String × String))) (e : AuditLogError) (st : StackTrace) :
    (∀ o r m, GhCall.getRepo o r ∈ (findRepository gh maps e st).2 →
      gh.getRepository o r = .error m →
      (findRepository gh maps e st).1 = .error m) ∧
    (∀ msg log, findRepository gh maps e st = (.error msg, log) →
      ∃ o r, GhCall.getRepo o r ∈ log ∧ gh.getRepository o r = .error msg) ∧
    ((∀ o r m, gh.getRepository o r ≠ .error m) →
      ∃ v, (findRepository gh maps e st).1 = .ok v) := by
  refine ⟨fun o r m hm hr => findRepository_getRepo_prop gh maps e st o r m hr hm,
    findRepository_error_src gh maps e st, ?_⟩
  intro hok
  rcases hres : findRepository gh maps e st with ⟨res, log⟩
  rcases res with m | v
  · rcases findRepository_error_src gh maps e st m log hres with ⟨o, r, _, hp⟩
    exact absurd hp (hok o r m)
  · exact ⟨v, rfl⟩

/-- Witness for C6 (amended): with a port whose direct lookups raise, the
hint lookup is performed (it is the whole call log) and its failure is the
resolver result as-is; the same resolution with healthy lookups is ok. -/
theorem c6_lookup_failures_propagate_witness :
    (c6FailGh.getRepository "org" "alpha" = .error "lookup down") ∧
    (GhCall.getRepo "org" "alpha" ∈
      (findRepository c6FailGh none demoErrorA
        (StackTraceParserService.parse demoErrorA.stackTrace (some demoErrorA.message))).2) ∧
    ((findRepository c6FailGh none demoErrorA
        (StackTraceParserService.parse demoErrorA.stackTrace (some demoErrorA.message))).1 =
      .error "lookup down") ∧
    (∃ v, (findRepository demoGh none demoErrorA
        (StackTraceParserService.parse demoErrorA.stackTrace (some demoErrorA.message))).1 =
      .ok v) := by
  have hmem : GhCall.getRepo "org" "alpha" ∈
      (findRepository c6FailGh none demoErrorA
        (StackTraceParserService.parse demoErrorA.stackTrace (some demoErrorA.message))).2 := by
    rw [show (findRepository c6FailGh none demoErrorA
        (StackTraceParserService.parse demoErrorA.stackTrace (some demoErrorA.message))).2 =
      [GhCall.getRepo "org" "alpha"] from rfl]
    exact List.mem_singleton_self _
  refine ⟨rfl, hmem, ?_, ?_⟩
  · exact (c6_lookup_failures_propagate c6FailGh none demoErrorA
      (StackTraceParserService.parse demoErrorA.stackTrace (some demoErrorA.message))).1
      "org" "alpha" "lookup down" hmem rfl
  · exact (c6_lookup_failures_propagate demoGh none demoErrorA
      (StackTraceParserService.parse demoErrorA.stackTrace (some demoErrorA.message))).2.2
      (fun o r m hcontra => by
        revert hcontra
        unfold demoGh
        dsimp only
        split <;> simp)

/-- C3 counterexample: on a raw text whose first line is empty (no
recognizable markers anywhere) and no provided message, `parse` falls back
to the trimmed FIRST line — the empty string — not to the first non-empty
line ("boom"). -/
theorem c3_first_line_counterexample :
    detectLanguage "\nboom" = .unknown ∧
    (StackTraceParserService.parse "\nboom" none).errorMessage = "" ∧
    specFirstNonEmptyLine "\nboom" = "boom" ∧
    ("" : String) ≠ "boom" :=
  ⟨rfl, rfl, rfl, by decide⟩

/-- C3 (amended): `parse` is total by construction and echoes the raw text
back; input with no recognized language markers yields language "unknown";
and when the trimmed first line matches neither error-type header pattern,
the error message is the provided message when given, otherwise the trimmed
first line itself (which may be empty even when a later line is not). -/
theorem c3_unknown_input_message (raw : String) (msg? : Option String)
    (hjs : reMatchAnchored pJsHeader (trimJs (((jsSplit '\n' raw).head?).getD "")) = none)
    (hpy : reMatchAnchored pPyHeader (trimJs (((jsSplit '\n' raw).head?).getD "")) = none) :
    (StackTraceParserService.parse raw msg?).raw = raw ∧
    (detectLanguage raw = .unknown →
      (StackTraceParserService.parse raw msg?).language = .unknown) ∧
    (StackTraceParserService.parse raw msg?).errorMessage =
      msg?.getD (trimJs (((jsSplit '\n' raw).head?).getD "")) := by
  refine ⟨rfl, ?_, ?_⟩
  · intro h
    simp [StackTraceParserService.parse, h]
  · simp [StackTraceParserService.parse, extractErrorInfo, hjs, hpy]

/-- Witness for C3 at a concrete marker-free input. -/
theorem c3_unknown_input_message_witness :
    (reMatchAnchored pJsHeader (trimJs (((jsSplit '\n' "hello world\nmore").head?).getD "")) =
      none) ∧
    ((StackTraceParserService.parse "hello world\nmore" none).raw = "hello world\nmore" ∧
     (detectLanguage "hello world\nmore" = .unknown →
       (StackTraceParserService.parse "hello world\nmore" none).language = .unknown) ∧
     (StackTraceParserService.parse "hello world\nmore" none).errorMessage =
       (none : Option String).getD
         (trimJs (((jsSplit '\n' "hello world\nmore").head?).getD ""))) :=
  ⟨rfl, c3_unknown_input_message "hello world\nmore" none rfl rfl⟩

theorem wordChar_not_space {c : Char} (h : wordChar c = true) : spaceChar c = false := by
  unfold spaceChar
  simp only [Bool.or_eq_false_iff, decide_eq_false_iff_not]
  refine ⟨⟨⟨⟨⟨?_, ?_⟩, ?_⟩, ?_⟩, ?_⟩, ?_⟩ <;>
    (rintro rfl; revert h; decide)

theorem wordChar_dotChar {c : Char} (h : wordChar c = true) : dotChar c = true := by
  unfold dotChar
  simp only [Bool.not_eq_eq_eq_not, Bool.not_true, Bool.or_eq_false_iff,
    decide_eq_false_iff_not]
  constructor <;> (rintro rfl; revert h; decide)

theorem wordChar_ne_dot {c : Char} (h : wordChar c = true) : c ≠ '.' := by
  rintro rfl; revert h; decide

theorem digitChar_dotChar {c : Char} (h : digitChar c = true) : dotChar c = true := by
  unfold dotChar
  simp only [Bool.not_eq_eq_eq_not, Bool.not_true, Bool.or_eq_false_iff,
    decide_eq_false_iff_not]
  constructor <;> (rintro rfl; revert h; decide)

theorem digitChar_jsPathChar {c : Char} (h : digitChar c = true) : jsPathChar c = true := by
  unfold jsPathChar
  simp only [Bool.not_eq_eq_eq_not, Bool.not_true, Bool.or_eq_false_iff,
    decide_eq_false_iff_not]
  refine ⟨⟨?_, ?_⟩, ?_⟩ <;> (rintro rfl; revert h; decide)

theorem takeWhile_all_append {p : Char → Bool} {l1 : List Char} (l2 : List Char)
    (h : ∀ c ∈ l1, p c = true) :
    (l1 ++ l2).takeWhile p = l1 ++ l2.takeWhile p := by
  induction l1 with
  | nil => rfl
  | cons c t ih =>
    have hc : p c = true := h c (by simp)
    simp only [List.cons_append, List.takeWhile_cons_of_pos hc]
    rw [ih (fun d hd => h d (by simp [hd]))]

theorem dropWhile_all_append {p : Char → Bool} {l1 : List Char} (l2 : List Char)
    (h : ∀ c ∈ l1, p c = true) :
    (l1 ++ l2).dropWhile p = l2.dropWhile p := by
  induction l1 with
  | nil => rfl
  | cons c t ih =>
    have hc : p c = true := h c (by simp)
    simp only [List.cons_append, List.dropWhile_cons_of_pos hc]
    exact ih (fun d hd => h d (by simp [hd]))

theorem tryTails_some_of_suffix {k : List Char → Caps → Option (Caps × List Char)}
    {r2 rest : List Char} {caps : Caps} {v : Caps × List Char} (r1 : List Char)
    (h : tryTails k r2 rest caps = some v) :
    tryTails k (r1 ++ r2) rest caps = some v := by
  induction r1 with
  | nil => exact h
  | cons c t ih =>
    simp only [List.cons_append, tryTails, List.append_eq]
    rw [ih]
    rfl

theorem tryTails_none_of_all {k : List Char → Caps → Option (Caps × List Char)}
    {rest : List Char} {caps : Caps} :
    ∀ run, (∀ n, n ≤ run.length → k (run.drop n ++ rest) caps = none) →
    tryTails k run rest caps = none := by
  intro run
  induction run with
  | nil =>
    intro h
    simpa using h 0 (by simp)
  | cons c t ih =>
    intro h
    have ht : tryTails k t rest caps = none := by
      refine ih (fun n hn => ?_)
      have := h (n + 1) (by simpa using hn)
      simpa using this
    simp only [tryTails, ht, orElseO]
    simpa using h 0 (by simp)

theorem tryTails_isSome_zero {k : List Char → Caps → Option (Caps × List Char)}
    {rest : List Char} {caps : Caps} :
    ∀ run, (k (run ++ rest) caps).isSome → (tryTails k run rest caps).isSome := by
  intro run
  induction run with
  | nil => intro h; simpa using h
  | cons c t ih =>
    intro h
    simp only [tryTails]
    rcases hrec : tryTails k t rest caps with _ | v
    · simpa [orElseO] using h
    · simp [orElseO]

theorem tryTails_isSome_of_split {k : List Char → Caps → Option (Caps × List Char)}
    {r2 rest : List Char} {caps : Caps} (r1 : List Char)
    (h : (k (r2 ++ rest) caps).isSome) :
    (tryTails k (r1 ++ r2) rest caps).isSome := by
  induction r1 with
  | nil => exact tryTails_isSome_zero r2 h
  | cons c t ih =>
    simp only [List.cons_append, tryTails]
    rcases hrec : tryTails k (t ++ r2) rest caps with _ | v
    · rw [hrec] at ih
      simp at ih
    · simp [orElseO]

theorem mLit_append {lit rest : List Char} {caps : Caps}
    {k : List Char → Caps → Option (Caps × List Char)} :
    mLit lit (lit ++ rest) caps k = k rest caps := by
  induction lit with
  | nil => rfl
  | cons c t ih => simp [mLit, ih]

theorem mLit_ne_head {c d : Char} {cs ds : List Char} {caps : Caps}
    {k : List Char → Caps → Option (Caps × List Char)} (h : d ≠ c) :
    mLit (c :: cs) (d :: ds) caps k = none := by
  rw [mLit, if_neg (fun hh => h hh.symm)]

theorem startsWithL_append (pat l2 : List Char) : startsWithL (pat ++ l2) pat = true := by
  induction pat with
  | nil => cases l2 <;> rfl
  | cons c t ih => simp [startsWithL, ih]

theorem hasSubL_append_left {pat : List Char} (l1 : List Char) {l2 : List Char}
    (h : hasSubL l2 pat = true) : hasSubL (l1 ++ l2) pat = true := by
  induction l1 with
  | nil => exact h
  | cons c t ih =>
    rw [hasSubL.eq_def]
    simp only [Bool.or_eq_true]
    exact Or.inr ih

theorem hasSubL_of_startsWith {pat l : List Char} (h : startsWithL l pat = true) :
    hasSubL l pat = true := by
  rw [hasSubL.eq_def]
  simp [h]

theorem splitOnCharL_ne_nil (sep : Char) : ∀ l, splitOnCharL sep l ≠ [] := by
  intro l
  induction l with
  | nil => simp [splitOnCharL]
  | cons c t ih =>
    rw [splitOnCharL]
    split
    · simp
    · split
      · simp
      · simp

theorem splitOnCharL_head {sep : Char} {line : List Char}
    (hline : ∀ c ∈ line, c ≠ sep) :
    ∀ l2, (l2 = [] ∨ ∃ t2, l2 = sep :: t2) →
    ∃ t, splitOnCharL sep (line ++ l2) = line :: t := by
  induction line with
  | nil =>
    intro l2 h2
    rcases h2 with rfl | ⟨t2, rfl⟩
    · exact ⟨[], rfl⟩
    · exact ⟨splitOnCharL sep t2, by rw [List.nil_append, splitOnCharL, if_pos rfl]⟩
  | cons c t ih =>
    intro l2 h2
    have hc : c ≠ sep := hline c (by simp)
    rcases ih (fun d hd => hline d (by simp [hd])) l2 h2 with ⟨tl, htl⟩
    refine ⟨tl, ?_⟩
    rw [List.cons_append, splitOnCharL, if_neg hc, htl]

theorem mem_splitOnCharL_tail {sep : Char} {x l2 : List Char}
    (h : x ∈ splitOnCharL sep l2) :
    ∀ l1, x ∈ (splitOnCharL sep (l1 ++ sep :: l2)).tail := by
  intro l1
  induction l1 with
  | nil =>
    rw [List.nil_append, splitOnCharL, if_pos rfl]
    exact h
  | cons c t ih =>
    rw [List.cons_append, splitOnCharL]
    by_cases hc : c = sep
    · rw [if_pos hc]
      exact List.mem_of_mem_tail ih
    · rw [if_neg hc]
      rcases hsp : splitOnCharL sep (t ++ sep :: l2) with _ | ⟨hd, tl⟩
      · exact absurd hsp (splitOnCharL_ne_nil sep _)
      · rw [hsp] at ih
        exact ih

theorem mem_splitOnCharL_of_parts {sep : Char} {line l2 : List Char}
    (hline : ∀ c ∈ line, c ≠ sep)
    (h2 : l2 = [] ∨ ∃ t2, l2 = sep :: t2) :
    ∀ l1, (l1 = [] ∨ ∃ t1, l1 = t1 ++ [sep]) →
    line ∈ splitOnCharL sep (l1 ++ line ++ l2) := by
  intro l1 h1
  rcases splitOnCharL_head hline l2 h2 with ⟨tl, htl⟩
  rcases h1 with rfl | ⟨t1, rfl⟩
  · rw [List.nil_append, htl]
    simp
  · have : (t1 ++ [sep]) ++ line ++ l2 = t1 ++ sep :: (line ++ l2) := by simp
    rw [this]
    refine List.mem_of_mem_tail (mem_splitOnCharL_tail ?_ t1)
    rw [htl]
    simp

theorem scanFrom_cons_some {m : Matcher} {c : Char} {t : List Char}
    {r : Caps × List Char}
    (h : m (c :: t) [] (fun rest caps => some (caps, rest)) = some r) :
    scanFrom m (c :: t) = some r := by
  rw [scanFrom, h]
  rfl

theorem scanFrom_isSome_append {m : Matcher} {l2 : List Char}
    (h : (m l2 [] (fun rest caps => some (caps, rest))).isSome) :
    ∀ l1, (scanFrom m (l1 ++ l2)).isSome := by
  intro l1
  induction l1 with
  | nil =>
    rcases l2 with _ | ⟨c, t⟩
    · simpa [scanFrom] using h
    · rw [List.nil_append, scanFrom]
      rcases hm : m (c :: t) [] (fun rest caps => some (caps, rest)) with _ | v
      · rw [hm] at h
        simp at h
      · simp [orElseO]
  | cons c t ih =>
    rw [List.cons_append, scanFrom]
    rcases hm : m (c :: (t ++ l2)) [] (fun rest caps => some (caps, rest)) with _ | v
    · simpa [orElseO] using ih
    · simp [orElseO]

theorem orElseO_some_intro {e f : Option (Caps × List Char)} {v : Caps × List Char}
    (h : e = some v) : orElseO e f = some v := by
  rw [h]
  rfl

theorem orElseO_none_intro {e f : Option (Caps × List Char)} {v : Caps × List Char}
    (h1 : e = none) (h2 : f = some v) : orElseO e f = some v := by
  rw [h1, h2]
  rfl

theorem orElseO_isSome_left {e f : Option (Caps × List Char)} (h : e.isSome) :
    (orElseO e f).isSome := by
  rcases e with _ | v
  · simp at h
  · simp [orElseO]

theorem dropWhile_of_takeWhile_nil {p : Char → Bool} {l : List Char}
    (h : l.takeWhile p = []) : l.dropWhile p = l := by
  rcases l with _ | ⟨a, t⟩
  · rfl
  · by_cases ha : p a
    · rw [List.takeWhile_cons_of_pos ha] at h
      simp at h
    · exact List.dropWhile_cons_of_neg ha

theorem mStarCls_some_nil {p : Char → Bool} {inp : List Char} {caps : Caps}
    {k : List Char → Caps → Option (Caps × List Char)} {v : Caps × List Char}
    (h2 : inp.takeWhile p = []) (h : k inp caps = some v) :
    mStarCls p inp caps k = some v := by
  unfold mStarCls
  rw [h2, dropWhile_of_takeWhile_nil h2]
  exact h

theorem mStarCls_some_full {p : Char → Bool} {l1 l2 : List Char} {caps : Caps}
    {k : List Char → Caps → Option (Caps × List Char)} {v : Caps × List Char}
    (h1 : ∀ c ∈ l1, p c = true) (h2 : l2.takeWhile p = [])
    (h : k l2 caps = some v) :
    mStarCls p (l1 ++ l2) caps k = some v := by
  unfold mStarCls
  rw [takeWhile_all_append _ h1, dropWhile_all_append _ h1, h2,
    dropWhile_of_takeWhile_nil h2, List.append_nil]
  simpa using tryTails_some_of_suffix l1 (show tryTails k [] l2 caps = some v from h)

theorem mPlusCls_some_full {p : Char → Bool} {c : Char} {l1 l2 : List Char}
    {caps : Caps} {k : List Char → Caps → Option (Caps × List Char)}
    {v : Caps × List Char}
    (hc : p c = true) (h1 : ∀ x ∈ l1, p x = true) (h2 : l2.takeWhile p = [])
    (h : k l2 caps = some v) :
    mPlusCls p ((c :: l1) ++ l2) caps k = some v := by
  rw [List.cons_append]
  simp only [mPlusCls, mSeq, mCls]
  rw [if_pos hc]
  exact mStarCls_some_full h1 h2 h

theorem mStarCls_isSome_self {p : Char → Bool} {inp : List Char} {caps : Caps}
    {k : List Char → Caps → Option (Caps × List Char)}
    (h : (k inp caps).isSome) : (mStarCls p inp caps k).isSome := by
  unfold mStarCls
  apply tryTails_isSome_zero
  rw [List.takeWhile_append_dropWhile]
  exact h

theorem mStarCls_isSome_of_split {p : Char → Bool} {l1 l2 : List Char} {caps : Caps}
    {k : List Char → Caps → Option (Caps × List Char)}
    (h1 : ∀ c ∈ l1, p c = true) (h : (k l2 caps).isSome) :
    (mStarCls p (l1 ++ l2) caps k).isSome := by
  unfold mStarCls
  rw [takeWhile_all_append _ h1, dropWhile_all_append _ h1]
  exact tryTails_isSome_of_split l1 (by rw [List.takeWhile_append_dropWhile]; exact h)

theorem mPlusCls_isSome_cons {p : Char → Bool} {c : Char} {l1 l2 : List Char}
    {caps : Caps} {k : List Char → Caps → Option (Caps × List Char)}
    (hc : p c = true) (h1 : ∀ x ∈ l1, p x = true) (h : (k l2 caps).isSome) :
    (mPlusCls p ((c :: l1) ++ l2) caps k).isSome := by
  rw [List.cons_append]
  simp only [mPlusCls, mSeq, mCls]
  rw [if_pos hc]
  exact mStarCls_isSome_of_split h1 h

theorem word_ne {c x : Char} (h : wordChar c = true) (hx : wordChar x = false) : c ≠ x := by
  intro hc
  rw [hc, hx] at h
  exact absurd h (by simp)

theorem digit_ne {c x : Char} (h : digitChar c = true) (hx : digitChar x = false) : c ≠ x := by
  intro hc
  rw [hc, hx] at h
  exact absurd h (by simp)

theorem word_dot {c : Char} (h : wordChar c = true) : dotChar c = true := by
  simp [dotChar, word_ne h (show wordChar '\n' = false by decide),
    word_ne h (show wordChar '\r' = false by decide)]

theorem word_not_space {c : Char} (h : wordChar c = true) : spaceChar c = false := by
  simp [spaceChar, word_ne h (show wordChar ' ' = false by decide),
    word_ne h (show wordChar '\t' = false by decide),
    word_ne h (show wordChar '\n' = false by decide),
    word_ne h (show wordChar '\r' = false by decide),
    word_ne h (show wordChar '\x0b' = false by decide),
    word_ne h (show wordChar '\x0c' = false by decide)]

theorem word_ne_dotc {c : Char} (h : wordChar c = true) : c ≠ '.' :=
  word_ne h (by decide)

theorem digit_dot {c : Char} (h : digitChar c = true) : dotChar c = true := by
  simp [dotChar, digit_ne h (show digitChar '\n' = false by decide),
    digit_ne h (show digitChar '\r' = false by decide)]

theorem digit_ne_nl {c : Char} (h : digitChar c = true) : c ≠ '\n' :=
  digit_ne h (by decide)

theorem word_ne_nl {c : Char} (h : wordChar c = true) : c ≠ '\n' :=
  word_ne h (by decide)

theorem mLit_skip {c : Char} {cs ds : List Char} {caps : Caps}
    {k : List Char → Caps → Option (Caps × List Char)} :
    mLit (c :: cs) (c :: ds) caps k = mLit cs ds caps k := by
  rw [mLit, if_pos rfl]

theorem mPlusCls_isSome_one {p : Char → Bool} {c : Char} {l2 : List Char}
    {caps : Caps} {k : List Char → Caps → Option (Caps × List Char)}
    (hc : p c = true) (h : (k l2 caps).isSome) :
    (mPlusCls p (c :: l2) caps k).isSome := by
  simp only [mPlusCls, mSeq, mCls]
  rw [if_pos hc]
  exact mStarCls_isSome_self h

theorem pJsDetect_isSome_at (ft qt dt et post : List Char) (f1 q1 d1 e1 : Char)
    (hf : ∀ c ∈ f1 :: ft, dotChar c = true)
    (hq : ∀ c ∈ q1 :: qt, dotChar c = true)
    (hd : ∀ c ∈ d1 :: dt, digitChar c = true)
    (he : ∀ c ∈ e1 :: et, digitChar c = true) :
    (pJsDetect ('a' :: 't' :: ' '::((f1::ft) ++ (' ' :: '('::((q1::qt) ++
        ('.' :: 't' :: 's' :: ':'::((d1::dt) ++ (':'::((e1::et) ++ (')'::post)))))))))
      [] (fun rest caps => some (caps, rest))).isSome := by
  simp only [pJsDetect, mSeqs, List.foldr, lit, plusP, starP, alts, mSeq, mEps,
    mLits, mLit_skip, mLit, if_true]
  apply mPlusCls_isSome_one (by decide)
  apply mStarCls_isSome_of_split hf
  apply mPlusCls_isSome_one (by decide)
  simp only [mLit_skip, mLit, if_true]
  apply mStarCls_isSome_of_split hq
  simp only [mLit_skip, mLit, if_true]
  apply orElseO_isSome_left
  apply mPlusCls_isSome_cons (hd d1 (List.mem_cons_self d1 dt))
    (fun x hx => hd x (List.mem_cons_of_mem d1 hx))
  simp only [mLit_skip, mLit, if_true]
  apply mPlusCls_isSome_cons (he e1 (List.mem_cons_self e1 et))
    (fun x hx => he x (List.mem_cons_of_mem e1 hx))
  simp only [mLit_skip, mLit, if_true, Option.isSome_some]

theorem mOpt_some_first {a : Matcher} {inp : List Char} {caps : Caps}
    {k : List Char → Caps → Option (Caps × List Char)} {v : Caps × List Char}
    (h : a inp caps k = some v) : mOpt a inp caps k = some v := by
  simp only [mOpt]
  rw [h]
  rfl

theorem mOpt_some_skip {a : Matcher} {inp : List Char} {caps : Caps}
    {k : List Char → Caps → Option (Caps × List Char)} {v : Caps × List Char}
    (h1 : a inp caps k = none) (h2 : k inp caps = some v) :
    mOpt a inp caps k = some v := by
  simp only [mOpt]
  rw [h1, h2]
  rfl

theorem mGroup_some {i : Nat} {a : Matcher} {inp : List Char} {caps : Caps}
    {k : List Char → Caps → Option (Caps × List Char)} {v : Caps × List Char}
    (h : a inp caps (fun rest caps2 =>
      k rest ((i, inp.take (inp.length - rest.length)) :: caps2)) = some v) :
    mGroup i a inp caps k = some v := h

theorem mPlusCls_some_one_nil {p : Char → Bool} {c : Char} {l2 : List Char}
    {caps : Caps} {k : List Char → Caps → Option (Caps × List Char)}
    {v : Caps × List Char}
    (hc : p c = true) (h2 : l2.takeWhile p = []) (h : k l2 caps = some v) :
    mPlusCls p (c :: l2) caps k = some v := by
  simp only [mPlusCls, mSeq, mCls]
  rw [if_pos hc]
  exact mStarCls_some_nil h2 h

theorem mPlusCls_some_dotTs {q1 : Char} {qt Y : List Char} {caps : Caps}
    {k : List Char → Caps → Option (Caps × List Char)} {v : Caps × List Char}
    (hq : ∀ x ∈ q1 :: qt, jsPathChar x = true)
    (h0 : k (':' :: Y) caps = none)
    (h1 : k ('s' :: ':' :: Y) caps = none)
    (h2 : k ('t' :: 's' :: ':' :: Y) caps = none)
    (h3 : k ('.' :: 't' :: 's' :: ':' :: Y) caps = some v) :
    mPlusCls jsPathChar ((q1 :: qt) ++ ('.' :: 't' :: 's' :: ':' :: Y)) caps k
      = some v := by
  rw [List.cons_append]
  simp only [mPlusCls, mSeq, mCls]
  rw [if_pos (hq q1 (List.mem_cons_self q1 qt))]
  unfold mStarCls
  rw [takeWhile_all_append _ (fun x hx => hq x (List.mem_cons_of_mem q1 hx)),
    dropWhile_all_append _ (fun x hx => hq x (List.mem_cons_of_mem q1 hx))]
  rw [show List.takeWhile jsPathChar ('.' :: 't' :: 's' :: ':' :: Y)
      = ['.', 't', 's'] from by
    rw [List.takeWhile_cons_of_pos (by decide), List.takeWhile_cons_of_pos (by decide),
      List.takeWhile_cons_of_pos (by decide), List.takeWhile_cons_of_neg (by decide)]]
  rw [show List.dropWhile jsPathChar ('.' :: 't' :: 's' :: ':' :: Y)
      = ':' :: Y from by
    rw [List.dropWhile_cons_of_pos (by decide), List.dropWhile_cons_of_pos (by decide),
      List.dropWhile_cons_of_pos (by decide), List.dropWhile_cons_of_neg (by decide)]]
  apply tryTails_some_of_suffix qt
  simp only [tryTails, List.cons_append, List.nil_append, h0, h1, h2, h3, orElseO]

theorem mLit_ne {c d : Char} {cs ds : List Char} {caps : Caps}
    {k : List Char → Caps → Option (Caps × List Char)} (h : ¬(c = d)) :
    mLit (c :: cs) (d :: ds) caps k = none := by
  rw [mLit, if_neg h]

set_option maxHeartbeats 1000000 in
theorem jsCls_none (c : Char) (l1 l2 : List Char) (caps : Caps)
    (k : List Char → Caps → Option (Caps × List Char))
    (hw : ∀ x ∈ c :: l1, wordChar x = true) :
    mSeq (mGroup 1 (mSeq (mPlusCls wordChar)
        (mSeq (mStarSeq (mSeq (mLit ['.']) (mSeq (mPlusCls wordChar) mEps))) mEps)))
      (mSeq (mLit ['.']) mEps) ((c :: l1) ++ (' ' :: l2)) caps k = none := by
  simp only [mSeq, mGroup]
  rw [List.cons_append]
  simp only [mPlusCls, mSeq, mCls]
  rw [if_pos (hw c (List.mem_cons_self c l1))]
  unfold mStarCls
  rw [takeWhile_all_append _ (fun x hx => hw x (List.mem_cons_of_mem c hx)),
    dropWhile_all_append _ (fun x hx => hw x (List.mem_cons_of_mem c hx)),
    List.takeWhile_cons_of_neg (by decide), List.dropWhile_cons_of_neg (by decide),
    List.append_nil]
  apply tryTails_none_of_all
  intro n hn
  rcases hs : l1.drop n with _ | ⟨x, xs⟩
  · simp only [List.nil_append, mStarSeq, mStarSeqFuel, mSeq, mEps,
      mLit_ne (show ¬('.' = ' ') by decide), orElseO]
  · have hx : wordChar x = true :=
      hw x (List.mem_cons_of_mem c (List.drop_subset n l1 (hs ▸ List.mem_cons_self x xs)))
    simp only [List.cons_append, mStarSeq, mStarSeqFuel, mSeq, mEps,
      mLit_ne (Ne.symm (word_ne_dotc hx)), orElseO]

theorem span_of_append (l1 l2 : List Char) :
    (l1 ++ l2).take ((l1 ++ l2).length - l2.length) = l1 := by
  rw [List.length_append, Nat.add_sub_cancel, List.take_left]

theorem span_of_append3 (l1 Z : List Char) (a b c x : Char) :
    (l1 ++ (a::b::c::x::Z)).take ((l1 ++ (a::b::c::x::Z)).length - (x::Z).length)
      = l1 ++ [a, b, c] := by
  have h : l1 ++ (a::b::c::x::Z) = (l1 ++ [a, b, c]) ++ (x::Z) := by simp
  rw [h, List.length_append, Nat.add_sub_cancel, List.take_left]

set_option maxHeartbeats 1000000 in
theorem pJsFrame_exact (ft qt dt et : List Char) (f1 q1 d1 e1 : Char)
    (hf : ∀ c ∈ f1 :: ft, wordChar c = true)
    (hq : ∀ c ∈ q1 :: qt, jsPathChar c = true)
    (hd : ∀ c ∈ d1 :: dt, digitChar c = true)
    (he : ∀ c ∈ e1 :: et, digitChar c = true) :
    pJsFrame ('a' :: 't' :: ' '::((f1::ft) ++ (' ' :: '('::((q1::qt) ++
        ('.' :: 't' :: 's' :: ':'::((d1::dt) ++ (':'::((e1::et) ++ [')']))))))))
      [] (fun rest caps => some (caps, rest)) =
      some ([(5, e1::et), (4, d1::dt), (3, (q1::qt) ++ ['.', 't', 's']),
        (2, f1::ft)], []) := by
  simp only [pJsFrame, mSeqs, List.foldr, mSeq, mEps, lit, plusP, starP, alts,
    mLits, mLit_skip, mLit, if_true]
  apply mPlusCls_some_one_nil (by decide)
  · rw [List.cons_append]
    exact List.takeWhile_cons_of_neg
      (by simp [word_not_space (hf f1 (List.mem_cons_self f1 ft))])
  apply mOpt_some_first
  simp only [mSeq]
  apply mOpt_some_skip
  · exact jsCls_none f1 ft _ _ _ hf
  apply mGroup_some
  apply mPlusCls_some_full (hf f1 (List.mem_cons_self f1 ft))
    (fun x hx => hf x (List.mem_cons_of_mem f1 hx))
  · exact List.takeWhile_cons_of_neg (by decide)
  simp only [mSeq, mEps]
  apply mPlusCls_some_one_nil (by decide)
  · exact List.takeWhile_cons_of_neg (by decide)
  apply mOpt_some_first
  rw [mLit_skip]
  simp only [mLit, mEps, if_true]
  apply mGroup_some
  simp only [mSeq]
  apply mPlusCls_some_dotTs hq
  · rfl
  · rfl
  · rfl
  rw [mLit_skip]
  simp only [mLit, mEps, if_true]
  apply orElseO_some_intro
  apply mGroup_some
  apply mPlusCls_some_full (hd d1 (List.mem_cons_self d1 dt))
    (fun x hx => hd x (List.mem_cons_of_mem d1 hx))
  · exact List.takeWhile_cons_of_neg (by decide)
  simp only [mLit_skip, mLit, mEps, if_true]
  apply mGroup_some
  apply mPlusCls_some_full (he e1 (List.mem_cons_self e1 et))
    (fun x hx => he x (List.mem_cons_of_mem e1 hx))
  · decide
  apply mOpt_some_first
  simp only [mLit_skip, mLit, mEps, if_true]
  rw [span_of_append, span_of_append, span_of_append3, span_of_append]

theorem dot_ne_nl {c : Char} (h : dotChar c = true) : c ≠ '\n' := by
  intro hc
  rw [hc] at h
  exact absurd h (by decide)

theorem takeWhile_all_self {p : Char → Bool} {l : List Char}
    (h : ∀ c ∈ l, p c = true) : l.takeWhile p = l := by
  have h2 := takeWhile_all_append ([] : List Char) h
  simpa using h2

theorem parseIntDec_digits {d1 : Char} {dt : List Char}
    (hd : ∀ c ∈ d1 :: dt, digitChar c = true) :
    parseIntDec (d1 :: dt) = some (decValue (d1 :: dt)) := by
  rw [parseIntDec, takeWhile_all_self hd]

set_option maxHeartbeats 1000000 in
/-- C4 (amended): for every raw stack text containing an ECMAScript-style
line `at fn (path.ts:L:C)` (decomposed as `pre` empty or newline-terminated,
then the literal line with word-character function name `f1 :: ft`, a path
`q1 :: qt` over `[^():]` line-characters ending in `.ts`, line digits
`d1 :: dt`, column digits `e1 :: et`, then `post` empty or starting with a
newline), `parse` returns language typescript and a frame whose line number
is the decimal value of the line digits.  The narrowing between typescript
and javascript, however, is decided by the presence of `.ts` anywhere in the
whole raw text (final conjunct), not within the matched line as claimed. -/
theorem c4_js_frame_parse_and_narrowing (raw : String) (em : Option String)
    (pre post ft qt dt et : List Char) (f1 q1 d1 e1 : Char)
    (hdata : raw.data = pre ++ ('a' :: 't' :: ' '::((f1::ft) ++ (' ' :: '('::((q1::qt) ++ ('.' :: 't' :: 's' :: ':'::((d1::dt) ++ (':'::((e1::et) ++ (')'::post))))))))))
    (hpre : pre = [] ∨ ∃ t0, pre = t0 ++ ['\n'])
    (hpost : post = [] ∨ ∃ t0, post = '\n' :: t0)
    (hf : ∀ c ∈ f1 :: ft, wordChar c = true)
    (hq : ∀ c ∈ q1 :: qt, jsPathChar c = true ∧ dotChar c = true)
    (hd : ∀ c ∈ d1 :: dt, digitChar c = true)
    (he : ∀ c ∈ e1 :: et, digitChar c = true) :
    (StackTraceParserService.parse raw em).language = ProgrammingLanguage.typescript ∧
    (∃ fr ∈ (StackTraceParserService.parse raw em).frames,
      fr.lineNumber = some (decValue (d1 :: dt))) ∧
    (∀ raw2 : String, reTest pJsDetect raw2 = true →
      detectLanguage raw2 =
        if strContains raw2 ".ts" then ProgrammingLanguage.typescript
        else ProgrammingLanguage.javascript) := by
  have hdet : reTest pJsDetect raw = true := by
    rw [reTest, hdata]
    exact scanFrom_isSome_append
      (pJsDetect_isSome_at ft qt dt et post f1 q1 d1 e1
        (fun c hc => word_dot (hf c hc))
        (fun c hc => (hq c hc).2) hd he) pre
  have hts : strContains raw ".ts" = true := by
    rw [strContains]
    have h2 : raw.data = (pre ++ ('a' :: 't' :: ' '::((f1::ft) ++ (' ' :: '('::(q1::qt)))))
        ++ ('.' :: 't' :: 's'::(':'::((d1::dt) ++ (':'::((e1::et) ++ (')'::post)))))) := by
      rw [hdata]
      simp
    rw [h2]
    exact hasSubL_append_left _ (hasSubL_of_startsWith (by rfl))
  have hlang : detectLanguage raw = ProgrammingLanguage.typescript := by
    rw [detectLanguage, if_pos hdet, if_pos hts]
  refine ⟨hlang, ?_, ?_⟩
  · have hframes : (StackTraceParserService.parse raw em).frames
        = parseJavaScriptFrames raw := by
      show parseFrames raw (detectLanguage raw) = _
      rw [hlang]
      rfl
    rw [hframes]
    have hline : ∀ c ∈ ('a' :: 't' :: ' '::((f1::ft) ++ (' ' :: '('::((q1::qt) ++ ('.' :: 't' :: 's' :: ':'::((d1::dt) ++ (':'::((e1::et) ++ [')'])))))))), c ≠ '\n' := by
      intro c hc
      simp only [List.mem_cons, List.mem_append] at hc
      rcases hc with rfl | rfl | rfl | hcm | rfl | rfl | hcm | rfl | rfl | rfl | rfl |
        hcm | rfl | hcm | (rfl | hcm) <;>
        first
          | decide
          | exact absurd hcm (List.not_mem_nil c)
          | exact word_ne_nl (hf _ (List.mem_cons.mpr hcm))
          | exact dot_ne_nl ((hq _ (List.mem_cons.mpr hcm)).2)
          | exact digit_ne_nl (hd _ (List.mem_cons.mpr hcm))
          | exact digit_ne_nl (he _ (List.mem_cons.mpr hcm))
    have hmem : ('a' :: 't' :: ' '::((f1::ft) ++ (' ' :: '('::((q1::qt) ++ ('.' :: 't' :: 's' :: ':'::((d1::dt) ++ (':'::((e1::et) ++ [')'])))))))) ∈ splitOnCharL '\n' raw.data := by
      have hform : raw.data = pre ++ ('a' :: 't' :: ' '::((f1::ft) ++ (' ' :: '('::((q1::qt) ++ ('.' :: 't' :: 's' :: ':'::((d1::dt) ++ (':'::((e1::et) ++ [')'])))))))) ++ post := by
        rw [hdata]
        simp
      rw [hform]
      exact mem_splitOnCharL_of_parts hline hpost pre hpre
    have hsplit : String.mk ('a' :: 't' :: ' '::((f1::ft) ++ (' ' :: '('::((q1::qt) ++ ('.' :: 't' :: 's' :: ':'::((d1::dt) ++ (':'::((e1::et) ++ [')'])))))))) ∈ jsSplit '\n' raw := by
      rw [jsSplit]
      exact List.mem_map_of_mem String.mk hmem
    have hfind : reFind pJsFrame (String.mk ('a' :: 't' :: ' '::((f1::ft) ++ (' ' :: '('::((q1::qt) ++ ('.' :: 't' :: 's' :: ':'::((d1::dt) ++ (':'::((e1::et) ++ [')'])))))))))
        = some [(5, e1::et), (4, d1::dt), (3, (q1::qt) ++ ['.', 't', 's']), (2, f1::ft)] := by
      rw [reFind]
      rw [show (String.mk ('a' :: 't' :: ' '::((f1::ft) ++ (' ' :: '('::((q1::qt) ++ ('.' :: 't' :: 's' :: ':'::((d1::dt) ++ (':'::((e1::et) ++ [')']))))))))).data = ('a' :: 't' :: ' '::((f1::ft) ++ (' ' :: '('::((q1::qt) ++ ('.' :: 't' :: 's' :: ':'::((d1::dt) ++ (':'::((e1::et) ++ [')'])))))))) from rfl]
      rw [scanFrom_cons_some (pJsFrame_exact ft qt dt et f1 q1 d1 e1 hf
        (fun c hc => (hq c hc).1) hd he)]
      rfl
    refine ⟨{ filePath := (capStr [(5, e1::et), (4, d1::dt), (3, (q1::qt) ++ ['.', 't', 's']), (2, f1::ft)] 3).getD "", lineNumber := capNum [(5, e1::et), (4, d1::dt), (3, (q1::qt) ++ ['.', 't', 's']), (2, f1::ft)] 4, columnNumber := capNum [(5, e1::et), (4, d1::dt), (3, (q1::qt) ++ ['.', 't', 's']), (2, f1::ft)] 5, functionName := capStr [(5, e1::et), (4, d1::dt), (3, (q1::qt) ++ ['.', 't', 's']), (2, f1::ft)] 2, className := capStr [(5, e1::et), (4, d1::dt), (3, (q1::qt) ++ ['.', 't', 's']), (2, f1::ft)] 1, isUserCode := isUserCode ((capStr [(5, e1::et), (4, d1::dt), (3, (q1::qt) ++ ['.', 't', 's']), (2, f1::ft)] 3).getD "") }, ?_, ?_⟩
    · rw [parseJavaScriptFrames]
      refine List.mem_filterMap.mpr ⟨String.mk ('a' :: 't' :: ' '::((f1::ft) ++ (' ' :: '('::((q1::qt) ++ ('.' :: 't' :: 's' :: ':'::((d1::dt) ++ (':'::((e1::et) ++ [')'])))))))), hsplit, ?_⟩
      rw [hfind]
      rfl
    · exact parseIntDec_digits hd
  · intro raw2 h2
    rw [detectLanguage, if_pos h2]

/-- C4 counterexample: the narrowing between the statically- and
dynamically-typed ECMAScript variants is decided by `includes('.ts')` on the
WHOLE raw text, not on the matched call-stack line.  Here the only line the
detection pattern matches is `at fn (a.js:1:2)` (the `foo.ts` line does not
match it and contains no frame), that matched line does not contain `.ts`,
yet the detected language is typescript because `.ts` occurs elsewhere. -/
theorem c4_ts_narrowing_counterexample :
    detectLanguage "foo.ts\nat fn (a.js:1:2)" = ProgrammingLanguage.typescript ∧
    reTest pJsDetect "at fn (a.js:1:2)" = true ∧
    strContains "at fn (a.js:1:2)" ".ts" = false ∧
    reTest pJsDetect "foo.ts" = false :=
  ⟨rfl, rfl, rfl, rfl⟩

/-- Witness for C4 at the concrete trace `at fn (a.ts:1:2)`. -/
theorem c4_js_frame_parse_and_narrowing_witness :
    (StackTraceParserService.parse "at fn (a.ts:1:2)" none).language
        = ProgrammingLanguage.typescript ∧
    (∃ fr ∈ (StackTraceParserService.parse "at fn (a.ts:1:2)" none).frames,
      fr.lineNumber = some 1) ∧
    (∀ raw2 : String, reTest pJsDetect raw2 = true →
      detectLanguage raw2 =
        if strContains raw2 ".ts" then ProgrammingLanguage.typescript
        else ProgrammingLanguage.javascript) :=
  c4_js_frame_parse_and_narrowing "at fn (a.ts:1:2)" none [] [] ['n'] [] [] []
    'f' 'a' '1' '2' rfl (Or.inl rfl) (Or.inl rfl) (by decide) (by decide)
    (by decide) (by decide)
